import Mathlib

/-!
Verification development for the jaguar protected-habitat zonal-overlap
pipeline (`src/run_pipeline.py`).

The pipeline is shallowly embedded: polygonal geometries are modelled as
finite sets of unit cells (`Finset ℕ`), so `union`, `intersection` and
`area` are the set operations and cardinality; the external geometry
engine's coordinate transformation and topology-preserving simplification
(OGR `Transform` / `SimplifyPreserveTopology`), whose internals are out of
scope, are parameters gathered in a `GeoEngine`.  Layer access (attribute
filter strings, spatial filters, filtered iteration) and the mutable filter
state on each of the three layer handles are modelled explicitly, as is the
`defaultdict` result store and the error behaviour of `reproject_geometry`.
-/

namespace JP

/-- A polygonal shape: the finite set of unit cells it covers, in the
coordinates of whatever spatial reference system it is currently in. -/
abbrev Shape := Finset ℕ

/-- An OGR geometry: an optional spatial reference system (EPSG code) and a
shape.  A geometry freshly read from storage carries no SRS until
`AssignSpatialReference` is called, mirroring the source which always
assigns the layer SRS before reprojecting. -/
structure Geom where
  srs : Option ℕ
  shape : Shape
deriving DecidableEq

/-- `GetArea`, as a rational so hectare conversion divides exactly. -/
def Geom.area (g : Geom) : ℚ := (g.shape.card : ℚ)

/-- `a.Union(b)`. -/
def Geom.union (a b : Geom) : Geom := ⟨a.srs, a.shape ∪ b.shape⟩

/-- `a.Intersection(b)`: intersection of disjoint geometries is the empty
geometry with area 0, never an error. -/
def Geom.intersection (a b : Geom) : Geom := ⟨a.srs, a.shape ∩ b.shape⟩

/-- `AssignSpatialReference` (assigning `None` clears the reference). -/
def Geom.assignSR (g : Geom) (s : Option ℕ) : Geom := ⟨s, g.shape⟩

/-- The external geometry engine's two non-set-theoretic primitives:
coordinate transformation between two SRSs and simplification at a
tolerance.  The pipeline calls them as black boxes. -/
structure GeoEngine where
  transform : ℕ → ℕ → Shape → Shape
  simplifyShape : ℚ → Shape → Shape

/-- `SimplifyPreserveTopology`. -/
def simplifyPT (e : GeoEngine) (g : Geom) (tol : ℚ) : Geom :=
  ⟨g.srs, e.simplifyShape tol g.shape⟩

/-- `reproject_geometry(geom, target_srs)` from `src/run_pipeline.py`:
raises (here: returns `.error`) when the geometry has no spatial
reference, otherwise transforms into the target SRS. -/
def reproject_geometry (e : GeoEngine) (geom : Geom) (target : ℕ) :
    Except String Geom :=
  match geom.srs with
  | none => .error "Source geometry has no spatial reference."
  | some s => .ok ⟨some target, e.transform s target geom.shape⟩

/-- One vector feature: the value of the layer's single relevant attribute
field (`iso3` for admin, `IUCN_CAT` for protected areas; `none` models a
null field) and its stored geometry's shape. -/
structure Feature where
  field : Option String
  shape : Shape
deriving DecidableEq

/-- One vector layer: its features in dataset order and its native SRS
(`GetSpatialRef`, which may be absent). -/
structure Layer where
  features : List Feature
  srs : Option ℕ
deriving DecidableEq

/-- The mutable filter state of one layer handle: `SetAttributeFilter`
stores a filter expression string, `SetSpatialFilter` stores a geometry. -/
structure LayerState where
  attrFilter : Option String
  spatialFilter : Option Geom
deriving DecidableEq

/-- Python `str(value)` as used in the f-string interpolation: a null field
value renders as the four characters `None`. -/
def pyStr : Option String → String
  | none => "None"
  | some s => s

/-- The f-string `f"{field} = '{value}'"`: the attribute filter expression,
built with no escaping of the interpolated value. -/
def buildFilter (field value : String) : String :=
  field ++ " = '" ++ value ++ "'"

/-- Strip an expected prefix from a character list. -/
def stripPre : List Char → List Char → Option (List Char)
  | [], rest => some rest
  | _ :: _, [] => none
  | p :: ps, c :: cs => if p = c then stripPre ps cs else none

/-- Parse the body of an OGR SQL single-quoted string literal, starting
just after the opening quote: a doubled quote stands for one literal quote
and a single quote closes the literal, which must end the expression. -/
def parseLit : List Char → Option (List Char)
  | [] => none
  | c :: rest =>
    if c = '\'' then
      match rest with
      | [] => some []
      | c2 :: rest2 =>
        if c2 = '\'' then (parseLit rest2).map (fun u => '\'' :: u)
        else none
    else (parseLit rest).map (fun u => c :: u)

/-- Parse an attribute filter expression of the shape
`<field> = '<literal>'`, returning the field name and the (unescaped)
literal value the filter compares against. -/
def parseEqFilter (expr : String) : Option (String × String) :=
  match stripPre (" = '").data (expr.data.dropWhile (fun c => c != ' ')) with
  | none => none
  | some rest =>
    match parseLit rest with
    | none => none
    | some u => some (String.mk (expr.data.takeWhile (fun c => c != ' ')), String.mk u)

/-- Whether a feature passes the layer's attribute filter: an equality
filter matches when the feature's field value is the (non-null) parsed
literal; a null field never equals a string literal, and an unparsable
expression matches nothing. -/
def attrPass (filt : Option String) (f : Feature) : Bool :=
  match filt with
  | none => true
  | some expr =>
    match parseEqFilter expr with
    | none => false
    | some pv => f.field == some pv.2

/-- Whether a feature passes the layer's spatial filter: its stored shape
intersects the filter geometry's shape. -/
def spatialPass (filt : Option Geom) (f : Feature) : Bool :=
  match filt with
  | none => true
  | some g => if f.shape ∩ g.shape = ∅ then false else true

/-- `for feature in layer`: iteration yields the features that pass both
currently-set filters, in dataset order. -/
def iterFeatures (l : Layer) (st : LayerState) : List Feature :=
  l.features.filter (fun f => attrPass st.attrFilter f && spatialPass st.spatialFilter f)

/-- Collecting the distinct values of a field over a full-layer scan (the
Python `set` loop), kept in first-occurrence order. -/
def distinctVals (l : List (Option String)) : List (Option String) :=
  l.foldl (fun acc v => if v ∈ acc then acc else acc ++ [v]) []

/-- `data[key] = value` on one region's inner result dict: update in place
if the key exists, else append (Python dict insertion order). -/
def setKey : List (String × ℚ) → String → ℚ → List (String × ℚ)
  | [], k, v => [(k, v)]
  | (k0, v0) :: t, k, v =>
    if k0 = k then (k, v) :: t else (k0, v0) :: setKey t k v

/-- `results[code][key] = value` on the `defaultdict(dict)` result store:
materialise the region's dict on first write, keep insertion order. -/
def setEntry : List (Option String × List (String × ℚ)) → Option String → String → ℚ →
    List (Option String × List (String × ℚ))
  | [], c, k, v => [(c, [(k, v)])]
  | (c0, d0) :: t, c, k, v =>
    if c0 = c then (c0, setKey d0 k v) :: t else (c0, d0) :: setEntry t c k v

/-- Lookup of a region's dict in the result store. -/
def dictLookup : List (Option String × List (String × ℚ)) → Option String →
    Option (List (String × ℚ))
  | [], _ => none
  | (c0, d0) :: t, c => if c0 = c then some d0 else dictLookup t c

/-- Lookup of one key in a region's dict. -/
def getKey : List (String × ℚ) → String → Option ℚ
  | [], _ => none
  | (k0, v0) :: t, k => if k0 = k then some v0 else getKey t k

/-- The run's mutable state: the three layer handles' filter states and the
result store. -/
structure RunState where
  adminF : LayerState
  bioF : LayerState
  paF : LayerState
  results : List (Option String × List (String × ℚ))
deriving DecidableEq

/-- The filter state of a freshly opened layer and the empty store. -/
def initState : RunState := ⟨⟨none, none⟩, ⟨none, none⟩, ⟨none, none⟩, []⟩

/-- Configuration constants of `src/run_pipeline.py`. -/
def ADMIN_VECTOR_ID_FIELD : String := "iso3"

/-- Field of the protected-area layer holding the category. -/
def PROTECTED_AREAS_FIELD : String := "IUCN_CAT"

/-- `SIMPLIFY_TOLERANCE = 0.001`. -/
def SIMPLIFY_TOLERANCE : ℚ := 1 / 1000

/-- The working SRS: `target_srs.ImportFromEPSG(3857)`. -/
def TARGET_EPSG : ℕ := 3857

/-- Lines 60-68: fold the geometries of the filtered admin features with
`Union`; the first matching feature's clone seeds the accumulator, `None`
when no feature matched. -/
def mergeAdminGeom (l : List Feature) : Option Geom :=
  l.foldl
    (fun acc f =>
      match acc with
      | none => some ⟨none, f.shape⟩
      | some g => some (g.union ⟨none, f.shape⟩))
    none

/-- Lines 60-78: merge the matched admin features, and when a geometry
resulted, assign the admin layer's native SRS, reproject to the working
SRS, then simplify with the configured tolerance.  `.ok none` is the
skipped (no-geometry) region. -/
def buildWorkingGeom (e : GeoEngine) (adminSrs : Option ℕ) (matched : List Feature) :
    Except String (Option Geom) :=
  match mergeAdminGeom matched with
  | none => .ok none
  | some g0 =>
    match reproject_geometry e (g0.assignSR adminSrs) TARGET_EPSG with
    | .error m => .error m
    | .ok g1 => .ok (some (simplifyPT e g1 SIMPLIFY_TOLERANCE))

/-- Lines 85-92 and 125-132: loop over (already filtered) biodiversity
features, clone, assign the bio layer SRS, reproject, intersect with the
target geometry and accumulate the intersection area. -/
def bioLoop (e : GeoEngine) (bsrs : Option ℕ) (target : Geom) :
    List Feature → ℚ → Except String ℚ
  | [], acc => .ok acc
  | bf :: rest, acc =>
    match reproject_geometry e ⟨bsrs, bf.shape⟩ TARGET_EPSG with
    | .error m => .error m
    | .ok bg => bioLoop e bsrs target rest (acc + (target.intersection bg).area)

/-- Lines 111-136: loop over the filtered protected-area features.  Each
iteration reprojects and simplifies the feature, intersects it with the
admin geometry, adds that area to the category's protected-area total,
re-points the biodiversity layer's spatial filter at the intersection and
accumulates the triple overlap from the refiltered biodiversity scan.  The
returned triple also carries the biodiversity layer's final spatial filter,
which the loop leaves set to the last intersection. -/
def paLoop (e : GeoEngine) (psrs bsrs : Option ℕ) (adminGeom : Geom)
    (bioLayer : Layer) (bioAttr : Option String) :
    List Feature → ℚ → ℚ → Option Geom → Except String (ℚ × ℚ × Option Geom)
  | [], paAcc, bpAcc, bsp => .ok (paAcc, bpAcc, bsp)
  | pf :: rest, paAcc, bpAcc, _ =>
    match reproject_geometry e ⟨psrs, pf.shape⟩ TARGET_EPSG with
    | .error m => .error m
    | .ok pg0 =>
      let pg := simplifyPT e pg0 SIMPLIFY_TOLERANCE
      let inter := adminGeom.intersection pg
      match bioLoop e bsrs inter (iterFeatures bioLayer ⟨bioAttr, some inter⟩) 0 with
      | .error m => .error m
      | .ok bpa =>
        paLoop e psrs bsrs adminGeom bioLayer bioAttr rest
          (paAcc + inter.area) (bpAcc + bpa) (some inter)

/-- Lines 101-147: one category of one region.  Sets the protected-area
layer's attribute filter to the interpolated category equality and its
spatial filter to the admin geometry, runs the protected-area loop, and
stores both hectare totals under the interpolated keys. -/
def processCategory (e : GeoEngine) (bioLayer paLayer : Layer) (code : Option String)
    (adminGeom : Geom) (st : RunState) (cat : Option String) : Except String RunState :=
  let paF : LayerState :=
    ⟨some (buildFilter PROTECTED_AREAS_FIELD (pyStr cat)), some adminGeom⟩
  match paLoop e paLayer.srs bioLayer.srs adminGeom bioLayer st.bioF.attrFilter
      (iterFeatures paLayer paF) 0 0 st.bioF.spatialFilter with
  | .error m => .error m
  | .ok (paOv, bpOv, bsp) =>
    let r1 := setEntry st.results code ("pa_overlap_ha_" ++ pyStr cat) (paOv / 10000)
    let r2 := setEntry r1 code ("bio_pa_overlap_ha_" ++ pyStr cat) (bpOv / 10000)
    .ok ⟨st.adminF, ⟨st.bioF.attrFilter, bsp⟩, paF, r2⟩

/-- The `for iucn_cat in iucn_cats` loop. -/
def catLoop (e : GeoEngine) (bioLayer paLayer : Layer) (code : Option String)
    (adminGeom : Geom) : RunState → List (Option String) → Except String RunState
  | st, [] => .ok st
  | st, cat :: rest =>
    match processCategory e bioLayer paLayer code adminGeom st cat with
    | .error m => .error m
    | .ok st' => catLoop e bioLayer paLayer code adminGeom st' rest

/-- Lines 53-153: one region.  Sets the admin attribute filter to the
interpolated region-code equality, builds the working geometry (skipping
the region, with the admin filter left in place, when nothing matched),
computes the biodiversity overlap, runs every category, and finally clears
the admin filters, the biodiversity spatial filter and the protected-area
filters. -/
def processRegion (e : GeoEngine) (adminLayer bioLayer paLayer : Layer)
    (cats : List (Option String)) (st : RunState) (code : Option String) :
    Except String RunState :=
  let adminF : LayerState :=
    ⟨some (buildFilter ADMIN_VECTOR_ID_FIELD (pyStr code)), st.adminF.spatialFilter⟩
  match buildWorkingGeom e adminLayer.srs (iterFeatures adminLayer adminF) with
  | .error m => .error m
  | .ok none => .ok ⟨adminF, st.bioF, st.paF, st.results⟩
  | .ok (some adminGeom) =>
    let bioF : LayerState := ⟨st.bioF.attrFilter, some adminGeom⟩
    match bioLoop e bioLayer.srs adminGeom (iterFeatures bioLayer bioF) 0 with
    | .error m => .error m
    | .ok bioOv =>
      let st1 : RunState :=
        ⟨adminF, bioF, st.paF,
          setEntry st.results code "biodiversity_overlap_ha" (bioOv / 10000)⟩
      match catLoop e bioLayer paLayer code adminGeom st1 cats with
      | .error m => .error m
      | .ok st2 =>
        .ok ⟨⟨none, none⟩, ⟨st2.bioF.attrFilter, none⟩, ⟨none, none⟩, st2.results⟩

/-- The `for iso3_code in iso3_codes` loop. -/
def regionLoop (e : GeoEngine) (adminLayer bioLayer paLayer : Layer)
    (cats : List (Option String)) : RunState → List (Option String) →
    Except String RunState
  | st, [] => .ok st
  | st, code :: rest =>
    match processRegion e adminLayer bioLayer paLayer cats st code with
    | .error m => .error m
    | .ok st' => regionLoop e adminLayer bioLayer paLayer cats st' rest

/-- `main()`: collect the distinct region codes and categories by full
scans, then process every region starting from clean filter state and an
empty store.  An uncaught `reproject_geometry` failure aborts the whole
run with no results. -/
def main (e : GeoEngine) (adminLayer bioLayer paLayer : Layer) :
    Except String RunState :=
  regionLoop e adminLayer bioLayer paLayer
    (distinctVals (paLayer.features.map Feature.field))
    initState
    (distinctVals (adminLayer.features.map Feature.field))

/-- Lines 156-167: the reporter emits one block per result-store entry, in
store order, keyed by the entry's region code. -/
def reportBlocks (st : RunState) : List (Option String × String) :=
  st.results.map (fun p => (p.1, "ISO3: " ++ pyStr p.1))

/-! ### Derived forms used to state the specification's claims -/

/-- The admin features matching a region code's attribute filter (no
spatial filter is ever set on the admin layer in a clean run). -/
def matchedAdmin (adminLayer : Layer) (code : Option String) : List Feature :=
  iterFeatures adminLayer ⟨some (buildFilter ADMIN_VECTOR_ID_FIELD (pyStr code)), none⟩

/-- The plain union of a feature list's shapes. -/
def unionShapes (l : List Feature) : Shape :=
  (l.map Feature.shape).foldr (· ∪ ·) ∅

/-- A shape reprojected into the working SRS. -/
def transformShape (e : GeoEngine) (srs : ℕ) (s : Shape) : Shape :=
  e.transform srs TARGET_EPSG s

/-- A shape reprojected into the working SRS and then simplified with the
configured tolerance (the treatment of every protected-area geometry). -/
def simpTransShape (e : GeoEngine) (srs : ℕ) (s : Shape) : Shape :=
  e.simplifyShape SIMPLIFY_TOLERANCE (transformShape e srs s)

/-- The biodiversity overlap the specification prescribes for a working
geometry `W`: over every biodiversity feature passing the spatial filter by
`W`, the area of `W` intersected with the feature's reprojected geometry
(no simplification applied), summed, in square working-SRS units. -/
def bioOverlapSpec (e : GeoEngine) (bioLayer : Layer) (bsrs : ℕ) (W : Geom) : ℚ :=
  ((bioLayer.features.filter (fun f => spatialPass (some W) f)).map
    (fun f => (((W.shape ∩ transformShape e bsrs f.shape).card : ℕ) : ℚ))).sum

/-- The protected-area features matching one category: category filter
equality AND spatial intersection with the working geometry. -/
def paMatchedSpec (paLayer : Layer) (cat : Option String) (W : Geom) : List Feature :=
  iterFeatures paLayer
    ⟨some (buildFilter PROTECTED_AREAS_FIELD (pyStr cat)), some W⟩

/-- `regionCategoryIntersection` for one matched protected-area feature:
the working geometry intersected with the feature's reprojected and
simplified geometry. -/
def catInterGeom (e : GeoEngine) (psrs : ℕ) (W : Geom) (f : Feature) : Geom :=
  W.intersection ⟨some TARGET_EPSG, simpTransShape e psrs f.shape⟩

/-- The per-category protected-area overlap the specification prescribes:
the summed areas of the `regionCategoryIntersection`s. -/
def paOverlapSpec (e : GeoEngine) (paLayer : Layer) (psrs : ℕ)
    (cat : Option String) (W : Geom) : ℚ :=
  ((paMatchedSpec paLayer cat W).map
    (fun f => (catInterGeom e psrs W f).area)).sum

/-- The triple overlap contributed by one `regionCategoryIntersection` `I`:
the biodiversity layer refiltered spatially by `I`, each matching feature
reprojected and intersected with `I`, areas summed. -/
def triPartSpec (e : GeoEngine) (bioLayer : Layer) (bsrs : ℕ) (I : Geom) : ℚ :=
  ((bioLayer.features.filter (fun f => spatialPass (some I) f)).map
    (fun f => (((I.shape ∩ transformShape e bsrs f.shape).card : ℕ) : ℚ))).sum

/-- The per-category triple overlap the specification prescribes: the
triple contributions of every matched protected-area feature, summed. -/
def triOverlapSpec (e : GeoEngine) (bioLayer : Layer) (bsrs : ℕ)
    (paLayer : Layer) (psrs : ℕ) (cat : Option String) (W : Geom) : ℚ :=
  ((paMatchedSpec paLayer cat W).map
    (fun f => triPartSpec e bioLayer bsrs (catInterGeom e psrs W f))).sum

/-- The result key of a category's protected-area overlap. -/
def paKey (cat : Option String) : String := "pa_overlap_ha_" ++ pyStr cat

/-- The result key of a category's triple overlap. -/
def triKey (cat : Option String) : String := "bio_pa_overlap_ha_" ++ pyStr cat

/-- The result key of the region's biodiversity overlap. -/
def bioKey : String := "biodiversity_overlap_ha"

/-- What the category loop does to one region's result dict: for each
category in order, record the two hectare-converted overlap totals. -/
def catFoldEntry (e : GeoEngine) (bioLayer : Layer) (bsrs : ℕ) (paLayer : Layer)
    (psrs : ℕ) (W : Geom) (en : List (String × ℚ)) (cats : List (Option String)) :
    List (String × ℚ) :=
  cats.foldl
    (fun en cat =>
      setKey (setKey en (paKey cat) (paOverlapSpec e paLayer psrs cat W / 10000))
        (triKey cat) (triOverlapSpec e bioLayer bsrs paLayer psrs cat W / 10000))
    en

/-- What the category loop does to the whole result store. -/
def catFoldResults (e : GeoEngine) (bioLayer : Layer) (bsrs : ℕ) (paLayer : Layer)
    (psrs : ℕ) (W : Geom) (code : Option String)
    (rs : List (Option String × List (String × ℚ))) (cats : List (Option String)) :
    List (Option String × List (String × ℚ)) :=
  cats.foldl
    (fun rs cat =>
      setEntry
        (setEntry rs code (paKey cat) (paOverlapSpec e paLayer psrs cat W / 10000))
        code (triKey cat) (triOverlapSpec e bioLayer bsrs paLayer psrs cat W / 10000))
    rs

/-- Every value in the result store is non-negative. -/
def allNonneg (rs : List (Option String × List (String × ℚ))) : Prop :=
  ∀ p ∈ rs, ∀ kv ∈ p.2, (0 : ℚ) ≤ kv.2

/-- Doubling of embedded quotes: how OGR SQL renders a string literal whose
value contains a quote, used to express what a correctly escaped equality
filter would look like. -/
def escapeQuotes : List Char → List Char
  | [] => []
  | c :: t =>
    if c = '\'' then '\'' :: '\'' :: escapeQuotes t else c :: escapeQuotes t

/-! ### Result-store lemmas -/

theorem getKey_setKey_same (l : List (String × ℚ)) (k : String) (v : ℚ) :
    getKey (setKey l k v) k = some v := by
  induction l with
  | nil => simp [setKey, getKey]
  | cons p t ih =>
    by_cases h : p.1 = k
    · simp [setKey, getKey, h]
    · simp [setKey, getKey, h, ih]

theorem getKey_setKey_other (l : List (String × ℚ)) (k k' : String) (v : ℚ)
    (h : k' ≠ k) : getKey (setKey l k v) k' = getKey l k' := by
  induction l with
  | nil => simp [setKey, getKey, h, Ne.symm h]
  | cons p t ih =>
    by_cases h0 : p.1 = k
    · simp [setKey, getKey, h0, h, Ne.symm h]
    · by_cases h1 : p.1 = k'
      · simp [setKey, getKey, h0, h1, h]
      · simp [setKey, getKey, h0, h1, ih]

theorem dictLookup_setEntry_same (rs : List (Option String × List (String × ℚ)))
    (c : Option String) (k : String) (v : ℚ) :
    dictLookup (setEntry rs c k v) c = some (setKey ((dictLookup rs c).getD []) k v) := by
  induction rs with
  | nil => simp [setEntry, dictLookup, setKey]
  | cons p t ih =>
    by_cases h : p.1 = c
    · simp [setEntry, dictLookup, h]
    · simp [setEntry, dictLookup, h, ih]

theorem dictLookup_setEntry_other (rs : List (Option String × List (String × ℚ)))
    (c c' : Option String) (k : String) (v : ℚ) (h : c' ≠ c) :
    dictLookup (setEntry rs c k v) c' = dictLookup rs c' := by
  induction rs with
  | nil => simp [setEntry, dictLookup, Ne.symm h]
  | cons p t ih =>
    by_cases h0 : p.1 = c
    · simp [setEntry, dictLookup, h0, h, Ne.symm h]
    · by_cases h1 : p.1 = c'
      · simp [setEntry, dictLookup, h0, h1, h]
      · simp [setEntry, dictLookup, h0, h1, ih]

theorem allNonneg_setKey {l : List (String × ℚ)} {k : String} {v : ℚ}
    (hl : ∀ kv ∈ l, (0 : ℚ) ≤ kv.2) (hv : (0 : ℚ) ≤ v) :
    ∀ kv ∈ setKey l k v, (0 : ℚ) ≤ kv.2 := by
  induction l with
  | nil => simpa [setKey] using hv
  | cons p t ih =>
    by_cases h : p.1 = k
    · intro kv hkv
      rcases List.mem_cons.1 (by simpa [setKey, h] using hkv) with h1 | h1
      · simpa [h1] using hv
      · exact hl kv (List.mem_cons_of_mem _ h1)
    · intro kv hkv
      rcases List.mem_cons.1 (by simpa [setKey, h] using hkv) with h1 | h1
      · exact hl kv (by simp [h1])
      · exact ih (fun x hx => hl x (List.mem_cons_of_mem _ hx)) kv h1

theorem allNonneg_setEntry {rs : List (Option String × List (String × ℚ))}
    {c : Option String} {k : String} {v : ℚ}
    (hrs : allNonneg rs) (hv : (0 : ℚ) ≤ v) : allNonneg (setEntry rs c k v) := by
  induction rs with
  | nil =>
    intro p hp kv hkv
    simp [setEntry] at hp
    subst hp
    simpa [setKey] using (by simpa using hkv) ▸ hv
  | cons q t ih =>
    by_cases h : q.1 = c
    · intro p hp kv hkv
      rcases List.mem_cons.1 (by simpa [setEntry, h] using hp) with h1 | h1
      · subst h1
        exact allNonneg_setKey (fun x hx => hrs q (List.mem_cons_self _ _) x hx) hv kv hkv
      · exact hrs p (List.mem_cons_of_mem _ h1) kv hkv
    · intro p hp kv hkv
      rcases List.mem_cons.1 (by simpa [setEntry, h] using hp) with h1 | h1
      · exact hrs p (by simp [h1]) kv hkv
      · exact ih (fun x hx => hrs x (List.mem_cons_of_mem _ hx)) p h1 kv hkv

/-! ### Result-key disjointness -/

theorem paKey_ne_bioKey (cat : Option String) : paKey cat ≠ bioKey := by
  intro h
  have h2 := congrArg String.data h
  rw [paKey, bioKey, String.data_append] at h2
  simp at h2

theorem triKey_ne_bioKey (cat : Option String) : triKey cat ≠ bioKey := by
  intro h
  have h2 := congrArg String.data h
  rw [triKey, bioKey, String.data_append] at h2
  simp at h2

theorem paKey_ne_triKey (c1 c2 : Option String) : paKey c1 ≠ triKey c2 := by
  intro h
  have h2 := congrArg String.data h
  rw [paKey, triKey, String.data_append, String.data_append] at h2
  simp at h2

theorem paKey_inj {c1 c2 : Option String} (h : paKey c1 = paKey c2) :
    pyStr c1 = pyStr c2 := by
  have h2 := congrArg String.data h
  rw [paKey, paKey, String.data_append, String.data_append] at h2
  exact String.ext (List.append_cancel_left h2)

theorem triKey_inj {c1 c2 : Option String} (h : triKey c1 = triKey c2) :
    pyStr c1 = pyStr c2 := by
  have h2 := congrArg String.data h
  rw [triKey, triKey, String.data_append, String.data_append] at h2
  exact String.ext (List.append_cancel_left h2)

/-! ### Merged region geometry -/

theorem mergeAdminGeom_from_some (l : List Feature) (g : Geom) :
    (l.foldl
      (fun acc f =>
        match acc with
        | none => some ⟨none, f.shape⟩
        | some g => some (g.union ⟨none, f.shape⟩))
      (some g)) = some ⟨g.srs, g.shape ∪ unionShapes l⟩ := by
  induction l generalizing g with
  | nil =>
    cases g with
    | mk s sh => simp [unionShapes]
  | cons f t ih =>
    have step := ih (g.union ⟨none, f.shape⟩)
    simp only [List.foldl_cons]
    rw [step]
    have hu : unionShapes (f :: t) = f.shape ∪ unionShapes t := by
      simp [unionShapes]
    simp [Geom.union, hu, Finset.union_assoc]

theorem mergeAdminGeom_nil : mergeAdminGeom [] = none := rfl

theorem mergeAdminGeom_cons (f : Feature) (t : List Feature) :
    mergeAdminGeom (f :: t) = some ⟨none, unionShapes (f :: t)⟩ := by
  unfold mergeAdminGeom
  simp only [List.foldl_cons]
  rw [mergeAdminGeom_from_some]
  simp [unionShapes]

theorem mergeAdminGeom_eq_none_iff (l : List Feature) :
    mergeAdminGeom l = none ↔ l = [] := by
  cases l with
  | nil => simp [mergeAdminGeom_nil]
  | cons f t => simp [mergeAdminGeom_cons]

theorem buildWorkingGeom_nil (e : GeoEngine) (s : Option ℕ) :
    buildWorkingGeom e s [] = .ok none := rfl

theorem buildWorkingGeom_eq (e : GeoEngine) (asrs : ℕ) (matched : List Feature)
    (hne : matched ≠ []) :
    buildWorkingGeom e (some asrs) matched =
      .ok (some ⟨some TARGET_EPSG,
        e.simplifyShape SIMPLIFY_TOLERANCE
          (e.transform asrs TARGET_EPSG (unionShapes matched))⟩) := by
  cases matched with
  | nil => exact absurd rfl hne
  | cons f t =>
    rw [buildWorkingGeom, mergeAdminGeom_cons]
    rfl

theorem buildWorkingGeom_none_iff (e : GeoEngine) (s : Option ℕ)
    (matched : List Feature) :
    buildWorkingGeom e s matched = .ok none ↔ matched = [] := by
  cases matched with
  | nil => simp [buildWorkingGeom_nil]
  | cons f t =>
    rw [buildWorkingGeom, mergeAdminGeom_cons]
    cases s with
    | none => simp [reproject_geometry, Geom.assignSR]
    | some a => simp [reproject_geometry, Geom.assignSR]

theorem buildWorkingGeom_no_srs (e : GeoEngine) (matched : List Feature)
    (hne : matched ≠ []) :
    buildWorkingGeom e none matched =
      .error "Source geometry has no spatial reference." := by
  cases matched with
  | nil => exact absurd rfl hne
  | cons f t =>
    rw [buildWorkingGeom, mergeAdminGeom_cons]
    rfl

/-! ### Loop characterizations -/

theorem attrPass_none (f : Feature) : attrPass none f = true := rfl

theorem iter_attr_none (l : Layer) (sp : Option Geom) :
    iterFeatures l ⟨none, sp⟩ = l.features.filter (fun f => spatialPass sp f) := by
  simp [iterFeatures, attrPass_none]

theorem bioLoop_ok (e : GeoEngine) (bsrs : ℕ) (W : Geom) (l : List Feature) :
    ∀ acc : ℚ,
    bioLoop e (some bsrs) W l acc =
      .ok (acc + (l.map
        (fun f => (((W.shape ∩ transformShape e bsrs f.shape).card : ℕ) : ℚ))).sum) := by
  induction l with
  | nil => intro acc; simp [bioLoop]
  | cons bf rest ih =>
    intro acc
    rw [bioLoop, reproject_geometry]
    simp only []
    rw [ih]
    simp [Geom.intersection, Geom.area, transformShape, add_assoc]

/-- The biodiversity layer's spatial filter after the protected-area loop:
unchanged when the loop was empty, else the last intersection. -/
def lastSpat (e : GeoEngine) (psrs : ℕ) (W : Geom) :
    Option Geom → List Feature → Option Geom
  | bsp, [] => bsp
  | _, pf :: rest => lastSpat e psrs W (some (catInterGeom e psrs W pf)) rest

theorem paLoop_ok (e : GeoEngine) (psrs bsrs : ℕ) (W : Geom) (bioLayer : Layer)
    (l : List Feature) :
    ∀ (paAcc bpAcc : ℚ) (bsp : Option Geom),
    paLoop e (some psrs) (some bsrs) W bioLayer none l paAcc bpAcc bsp =
      .ok (paAcc + (l.map (fun pf => (catInterGeom e psrs W pf).area)).sum,
        bpAcc + (l.map
          (fun pf => triPartSpec e bioLayer bsrs (catInterGeom e psrs W pf))).sum,
        lastSpat e psrs W bsp l) := by
  induction l with
  | nil => intro paAcc bpAcc bsp; simp [paLoop, lastSpat]
  | cons pf rest ih =>
    intro paAcc bpAcc bsp
    rw [paLoop, reproject_geometry]
    simp only []
    have hinter :
        W.intersection (simplifyPT e ⟨some TARGET_EPSG,
          e.transform psrs TARGET_EPSG pf.shape⟩ SIMPLIFY_TOLERANCE) =
        catInterGeom e psrs W pf := rfl
    rw [hinter, iter_attr_none, bioLoop_ok]
    simp only []
    rw [ih]
    simp [triPartSpec, lastSpat, add_assoc]

theorem processCategory_ok (e : GeoEngine) (bioLayer paLayer : Layer)
    (code : Option String) (W : Geom) (st : RunState) (cat : Option String)
    (bsrs psrs : ℕ) (hB : bioLayer.srs = some bsrs) (hP : paLayer.srs = some psrs)
    (hBF : st.bioF.attrFilter = none) :
    processCategory e bioLayer paLayer code W st cat =
      .ok ⟨st.adminF,
        ⟨none, lastSpat e psrs W st.bioF.spatialFilter (paMatchedSpec paLayer cat W)⟩,
        ⟨some (buildFilter PROTECTED_AREAS_FIELD (pyStr cat)), some W⟩,
        setEntry
          (setEntry st.results code (paKey cat)
            (paOverlapSpec e paLayer psrs cat W / 10000))
          code (triKey cat)
          (triOverlapSpec e bioLayer bsrs paLayer psrs cat W / 10000)⟩ := by
  simp only [processCategory]
  rw [hB, hP, hBF]
  rw [show iterFeatures paLayer
      ⟨some (buildFilter PROTECTED_AREAS_FIELD (pyStr cat)), some W⟩ =
      paMatchedSpec paLayer cat W from rfl]
  rw [paLoop_ok]
  simp [paKey, triKey, paOverlapSpec, triOverlapSpec, hBF]

theorem catLoop_ok (e : GeoEngine) (bioLayer paLayer : Layer) (code : Option String)
    (W : Geom) (bsrs psrs : ℕ) (hB : bioLayer.srs = some bsrs)
    (hP : paLayer.srs = some psrs) (cats : List (Option String)) :
    ∀ st : RunState, st.bioF.attrFilter = none →
    ∃ sp pf, catLoop e bioLayer paLayer code W st cats =
      .ok ⟨st.adminF, ⟨none, sp⟩, pf,
        catFoldResults e bioLayer bsrs paLayer psrs W code st.results cats⟩ := by
  induction cats with
  | nil =>
    intro st hBF
    refine ⟨st.bioF.spatialFilter, st.paF, ?_⟩
    obtain ⟨a, b, p, r⟩ := st
    obtain ⟨battr, bsp⟩ := b
    simp only [catLoop, catFoldResults, List.foldl_nil]
    simp at hBF
    subst hBF
    rfl
  | cons cat rest ih =>
    intro st hBF
    rw [catLoop, processCategory_ok e bioLayer paLayer code W st cat bsrs psrs hB hP hBF]
    simp only []
    obtain ⟨sp, pf, hrest⟩ := ih
      ⟨st.adminF,
        ⟨none, lastSpat e psrs W st.bioF.spatialFilter (paMatchedSpec paLayer cat W)⟩,
        ⟨some (buildFilter PROTECTED_AREAS_FIELD (pyStr cat)), some W⟩,
        setEntry
          (setEntry st.results code (paKey cat)
            (paOverlapSpec e paLayer psrs cat W / 10000))
          code (triKey cat)
          (triOverlapSpec e bioLayer bsrs paLayer psrs cat W / 10000)⟩ rfl
    refine ⟨sp, pf, ?_⟩
    rw [hrest]
    rfl

theorem processRegion_skip (e : GeoEngine) (adminLayer bioLayer paLayer : Layer)
    (cats : List (Option String)) (st : RunState) (code : Option String)
    (hW : buildWorkingGeom e adminLayer.srs
      (iterFeatures adminLayer
        ⟨some (buildFilter ADMIN_VECTOR_ID_FIELD (pyStr code)),
          st.adminF.spatialFilter⟩) = .ok none) :
    processRegion e adminLayer bioLayer paLayer cats st code =
      .ok ⟨⟨some (buildFilter ADMIN_VECTOR_ID_FIELD (pyStr code)),
        st.adminF.spatialFilter⟩, st.bioF, st.paF, st.results⟩ := by
  simp only [processRegion]
  rw [hW]

theorem processRegion_ok (e : GeoEngine) (adminLayer bioLayer paLayer : Layer)
    (cats : List (Option String)) (st : RunState) (code : Option String)
    (bsrs psrs : ℕ) (W : Geom)
    (hB : bioLayer.srs = some bsrs) (hP : paLayer.srs = some psrs)
    (hAF : st.adminF.spatialFilter = none) (hBF : st.bioF.attrFilter = none)
    (hW : buildWorkingGeom e adminLayer.srs (matchedAdmin adminLayer code) =
      .ok (some W)) :
    processRegion e adminLayer bioLayer paLayer cats st code =
      .ok ⟨⟨none, none⟩, ⟨none, none⟩, ⟨none, none⟩,
        catFoldResults e bioLayer bsrs paLayer psrs W code
          (setEntry st.results code bioKey (bioOverlapSpec e bioLayer bsrs W / 10000))
          cats⟩ := by
  simp only [processRegion]
  rw [hAF]
  rw [show iterFeatures adminLayer
      ⟨some (buildFilter ADMIN_VECTOR_ID_FIELD (pyStr code)), none⟩ =
      matchedAdmin adminLayer code from rfl]
  rw [hW]
  simp only []
  rw [hBF, hB]
  rw [show iterFeatures bioLayer ⟨none, some W⟩ =
      bioLayer.features.filter (fun f => spatialPass (some W) f) from
      iter_attr_none bioLayer (some W)]
  rw [bioLoop_ok]
  simp only []
  have hbv : (0 : ℚ) + (List.map
      (fun f => (((W.shape ∩ transformShape e bsrs f.shape).card : ℕ) : ℚ))
      (List.filter (fun f => spatialPass (some W) f) bioLayer.features)).sum =
      bioOverlapSpec e bioLayer bsrs W := by
    simp [bioOverlapSpec]
  rw [hbv]
  obtain ⟨sp, pf, hcat⟩ := catLoop_ok e bioLayer paLayer code W bsrs psrs hB hP cats
    ⟨⟨some (buildFilter ADMIN_VECTOR_ID_FIELD (pyStr code)), none⟩,
      ⟨none, some W⟩, st.paF,
      setEntry st.results code bioKey (bioOverlapSpec e bioLayer bsrs W / 10000)⟩ rfl
  rw [show bioKey = "biodiversity_overlap_ha" from rfl] at hcat
  rw [hcat]
  rfl

/-! ### Category fold: what the store looks like afterwards -/

theorem catFoldResults_nil (e : GeoEngine) (bioLayer : Layer) (bsrs : ℕ)
    (paLayer : Layer) (psrs : ℕ) (W : Geom) (code : Option String)
    (rs : List (Option String × List (String × ℚ))) :
    catFoldResults e bioLayer bsrs paLayer psrs W code rs [] = rs := rfl

theorem catFoldResults_cons (e : GeoEngine) (bioLayer : Layer) (bsrs : ℕ)
    (paLayer : Layer) (psrs : ℕ) (W : Geom) (code : Option String)
    (rs : List (Option String × List (String × ℚ))) (cat : Option String)
    (rest : List (Option String)) :
    catFoldResults e bioLayer bsrs paLayer psrs W code rs (cat :: rest) =
      catFoldResults e bioLayer bsrs paLayer psrs W code
        (setEntry
          (setEntry rs code (paKey cat) (paOverlapSpec e paLayer psrs cat W / 10000))
          code (triKey cat)
          (triOverlapSpec e bioLayer bsrs paLayer psrs cat W / 10000))
        rest := rfl

theorem catFoldEntry_cons (e : GeoEngine) (bioLayer : Layer) (bsrs : ℕ)
    (paLayer : Layer) (psrs : ℕ) (W : Geom) (en : List (String × ℚ))
    (cat : Option String) (rest : List (Option String)) :
    catFoldEntry e bioLayer bsrs paLayer psrs W en (cat :: rest) =
      catFoldEntry e bioLayer bsrs paLayer psrs W
        (setKey
          (setKey en (paKey cat) (paOverlapSpec e paLayer psrs cat W / 10000))
          (triKey cat)
          (triOverlapSpec e bioLayer bsrs paLayer psrs cat W / 10000))
        rest := rfl

theorem catFoldResults_lookup_other (e : GeoEngine) (bioLayer : Layer) (bsrs : ℕ)
    (paLayer : Layer) (psrs : ℕ) (W : Geom) (code : Option String)
    (cats : List (Option String)) (c : Option String) (hc : c ≠ code) :
    ∀ rs, dictLookup (catFoldResults e bioLayer bsrs paLayer psrs W code rs cats) c =
      dictLookup rs c := by
  induction cats with
  | nil => intro rs; rfl
  | cons cat rest ih =>
    intro rs
    rw [catFoldResults_cons, ih, dictLookup_setEntry_other _ _ _ _ _ hc,
      dictLookup_setEntry_other _ _ _ _ _ hc]

theorem catFoldResults_lookup_code (e : GeoEngine) (bioLayer : Layer) (bsrs : ℕ)
    (paLayer : Layer) (psrs : ℕ) (W : Geom) (code : Option String)
    (cats : List (Option String)) :
    ∀ rs en, dictLookup rs code = some en →
    dictLookup (catFoldResults e bioLayer bsrs paLayer psrs W code rs cats) code =
      some (catFoldEntry e bioLayer bsrs paLayer psrs W en cats) := by
  induction cats with
  | nil => intro rs en h; exact h
  | cons cat rest ih =>
    intro rs en h
    rw [catFoldResults_cons, catFoldEntry_cons]
    apply ih
    rw [dictLookup_setEntry_same, dictLookup_setEntry_same, h]
    rfl

theorem catFoldEntry_getKey_notin (e : GeoEngine) (bioLayer : Layer) (bsrs : ℕ)
    (paLayer : Layer) (psrs : ℕ) (W : Geom) (cats : List (Option String))
    (k : String) (hk : ∀ c ∈ cats, k ≠ paKey c ∧ k ≠ triKey c) :
    ∀ en, getKey (catFoldEntry e bioLayer bsrs paLayer psrs W en cats) k =
      getKey en k := by
  induction cats with
  | nil => intro en; rfl
  | cons cat rest ih =>
    intro en
    have hcat := hk cat (List.mem_cons_self _ _)
    rw [catFoldEntry_cons,
      ih (fun c hc => hk c (List.mem_cons_of_mem _ hc)),
      getKey_setKey_other _ _ _ _ hcat.2, getKey_setKey_other _ _ _ _ hcat.1]

theorem catFoldEntry_getKey_bio (e : GeoEngine) (bioLayer : Layer) (bsrs : ℕ)
    (paLayer : Layer) (psrs : ℕ) (W : Geom) (cats : List (Option String))
    (en : List (String × ℚ)) :
    getKey (catFoldEntry e bioLayer bsrs paLayer psrs W en cats) bioKey =
      getKey en bioKey :=
  catFoldEntry_getKey_notin e bioLayer bsrs paLayer psrs W cats bioKey
    (fun c _ => ⟨Ne.symm (paKey_ne_bioKey c), Ne.symm (triKey_ne_bioKey c)⟩) en

theorem catFoldEntry_getKey_pa (e : GeoEngine) (bioLayer : Layer) (bsrs : ℕ)
    (paLayer : Layer) (psrs : ℕ) (W : Geom) (cats : List (Option String))
    (cat : Option String) (hN : (cats.map pyStr).Nodup) (hc : cat ∈ cats) :
    ∀ en, getKey (catFoldEntry e bioLayer bsrs paLayer psrs W en cats) (paKey cat) =
      some (paOverlapSpec e paLayer psrs cat W / 10000) := by
  induction cats with
  | nil => cases hc
  | cons c0 rest ih =>
    intro en
    rw [List.map_cons, List.nodup_cons] at hN
    rcases List.mem_cons.1 hc with h0 | h0
    · subst h0
      rw [catFoldEntry_cons]
      rw [catFoldEntry_getKey_notin]
      · rw [getKey_setKey_other _ _ _ _ (paKey_ne_triKey cat cat),
          getKey_setKey_same]
      · intro c hcrest
        constructor
        · intro hpk
          apply hN.1
          rw [paKey_inj hpk]
          exact List.mem_map_of_mem pyStr hcrest
        · exact paKey_ne_triKey cat c
    · rw [catFoldEntry_cons]
      exact ih hN.2 h0 _

theorem catFoldEntry_getKey_tri (e : GeoEngine) (bioLayer : Layer) (bsrs : ℕ)
    (paLayer : Layer) (psrs : ℕ) (W : Geom) (cats : List (Option String))
    (cat : Option String) (hN : (cats.map pyStr).Nodup) (hc : cat ∈ cats) :
    ∀ en, getKey (catFoldEntry e bioLayer bsrs paLayer psrs W en cats) (triKey cat) =
      some (triOverlapSpec e bioLayer bsrs paLayer psrs cat W / 10000) := by
  induction cats with
  | nil => cases hc
  | cons c0 rest ih =>
    intro en
    rw [List.map_cons, List.nodup_cons] at hN
    rcases List.mem_cons.1 hc with h0 | h0
    · subst h0
      rw [catFoldEntry_cons]
      rw [catFoldEntry_getKey_notin]
      · rw [getKey_setKey_same]
      · intro c hcrest
        constructor
        · exact fun hpk => paKey_ne_triKey c cat hpk.symm
        · intro htk
          apply hN.1
          rw [triKey_inj htk]
          exact List.mem_map_of_mem pyStr hcrest
    · rw [catFoldEntry_cons]
      exact ih hN.2 h0 _

/-! ### Non-negativity of every accumulated value -/

theorem bioOverlapSpec_nonneg (e : GeoEngine) (bioLayer : Layer) (bsrs : ℕ)
    (W : Geom) : 0 ≤ bioOverlapSpec e bioLayer bsrs W := by
  apply List.sum_nonneg
  intro x hx
  rcases List.mem_map.1 hx with ⟨a, _, rfl⟩
  positivity

theorem triPartSpec_nonneg (e : GeoEngine) (bioLayer : Layer) (bsrs : ℕ)
    (I : Geom) : 0 ≤ triPartSpec e bioLayer bsrs I := by
  apply List.sum_nonneg
  intro x hx
  rcases List.mem_map.1 hx with ⟨a, _, rfl⟩
  positivity

theorem paOverlapSpec_nonneg (e : GeoEngine) (paLayer : Layer) (psrs : ℕ)
    (cat : Option String) (W : Geom) : 0 ≤ paOverlapSpec e paLayer psrs cat W := by
  apply List.sum_nonneg
  intro x hx
  rcases List.mem_map.1 hx with ⟨a, _, rfl⟩
  simp [Geom.area]

theorem triOverlapSpec_nonneg (e : GeoEngine) (bioLayer : Layer) (bsrs : ℕ)
    (paLayer : Layer) (psrs : ℕ) (cat : Option String) (W : Geom) :
    0 ≤ triOverlapSpec e bioLayer bsrs paLayer psrs cat W := by
  apply List.sum_nonneg
  intro x hx
  rcases List.mem_map.1 hx with ⟨a, _, rfl⟩
  exact triPartSpec_nonneg e bioLayer bsrs _

theorem catFoldResults_nonneg (e : GeoEngine) (bioLayer : Layer) (bsrs : ℕ)
    (paLayer : Layer) (psrs : ℕ) (W : Geom) (code : Option String)
    (cats : List (Option String)) :
    ∀ rs, allNonneg rs →
    allNonneg (catFoldResults e bioLayer bsrs paLayer psrs W code rs cats) := by
  induction cats with
  | nil => intro rs h; exact h
  | cons cat rest ih =>
    intro rs h
    rw [catFoldResults_cons]
    apply ih
    apply allNonneg_setEntry (allNonneg_setEntry h ?_) ?_
    · exact div_nonneg (paOverlapSpec_nonneg e paLayer psrs cat W) (by norm_num)
    · exact div_nonneg (triOverlapSpec_nonneg e bioLayer bsrs paLayer psrs cat W)
        (by norm_num)

/-! ### Store and scan helper facts -/

theorem mem_distinctVals_aux (l : List (Option String)) (v : Option String) :
    ∀ acc, v ∈ acc ∨ v ∈ l →
    v ∈ l.foldl (fun acc w => if w ∈ acc then acc else acc ++ [w]) acc := by
  induction l with
  | nil => intro acc h; simpa using h
  | cons x t ih =>
    intro acc h
    rw [List.foldl_cons]
    by_cases hx : x ∈ acc
    · simp only [if_pos hx]
      apply ih
      rcases h with h | h
      · exact Or.inl h
      · rcases List.mem_cons.1 h with h1 | h1
        · exact Or.inl (h1 ▸ hx)
        · exact Or.inr h1
    · simp only [if_neg hx]
      apply ih
      rcases h with h | h
      · exact Or.inl (List.mem_append_left _ h)
      · rcases List.mem_cons.1 h with h1 | h1
        · exact Or.inl (by simp [h1])
        · exact Or.inr h1

theorem mem_distinctVals (l : List (Option String)) (v : Option String)
    (h : v ∈ l) : v ∈ distinctVals l :=
  mem_distinctVals_aux l v [] (Or.inr h)

theorem dictLookup_none_iff (rs : List (Option String × List (String × ℚ)))
    (c : Option String) : dictLookup rs c = none ↔ ∀ p ∈ rs, p.1 ≠ c := by
  induction rs with
  | nil => simp [dictLookup]
  | cons p t ih =>
    by_cases h : p.1 = c
    · simp [dictLookup, h]
    · simp [dictLookup, h, ih]

/-! ### The region loop -/

theorem regionLoop_preserves (e : GeoEngine) (adminLayer bioLayer paLayer : Layer)
    (cats : List (Option String)) (asrs bsrs psrs : ℕ)
    (hA : adminLayer.srs = some asrs) (hB : bioLayer.srs = some bsrs)
    (hP : paLayer.srs = some psrs) (c : Option String)
    (hzero : matchedAdmin adminLayer c = []) :
    ∀ (codes : List (Option String)) (st : RunState),
      st.adminF.spatialFilter = none → st.bioF.attrFilter = none →
      dictLookup st.results c = none →
    ∃ st', regionLoop e adminLayer bioLayer paLayer cats st codes = .ok st' ∧
      dictLookup st'.results c = none := by
  intro codes
  induction codes with
  | nil => intro st _ _ h3; exact ⟨st, rfl, h3⟩
  | cons code rest ih =>
    intro st h1 h2 h3
    by_cases h0 : matchedAdmin adminLayer code = []
    · have hskip := processRegion_skip e adminLayer bioLayer paLayer cats st code
        (by
          rw [h1]
          rw [show iterFeatures adminLayer
            ⟨some (buildFilter ADMIN_VECTOR_ID_FIELD (pyStr code)), none⟩ =
            matchedAdmin adminLayer code from rfl, h0]
          exact buildWorkingGeom_nil e adminLayer.srs)
      rw [regionLoop, hskip]
      exact ih _ h1 h2 h3
    · have hW := buildWorkingGeom_eq e asrs (matchedAdmin adminLayer code) h0
      have hgo := processRegion_ok e adminLayer bioLayer paLayer cats st code
        bsrs psrs
        ⟨some TARGET_EPSG, e.simplifyShape SIMPLIFY_TOLERANCE
          (e.transform asrs TARGET_EPSG (unionShapes (matchedAdmin adminLayer code)))⟩
        hB hP h1 h2 (by rw [hA]; exact hW)
      rw [regionLoop, hgo]
      apply ih _ rfl rfl
      have hcc : c ≠ code := by
        intro hcc
        rw [hcc] at hzero
        exact h0 hzero
      rw [catFoldResults_lookup_other _ _ _ _ _ _ _ _ _ hcc,
        dictLookup_setEntry_other _ _ _ _ _ hcc]
      exact h3

theorem regionLoop_err (e : GeoEngine) (adminLayer bioLayer paLayer : Layer)
    (cats : List (Option String)) (hA : adminLayer.srs = none) :
    ∀ (codes : List (Option String)) (st : RunState),
      st.adminF.spatialFilter = none →
      (∃ c ∈ codes, matchedAdmin adminLayer c ≠ []) →
    ∃ msg, regionLoop e adminLayer bioLayer paLayer cats st codes = .error msg := by
  intro codes
  induction codes with
  | nil => rintro st _ ⟨c, hc, _⟩; cases hc
  | cons code rest ih =>
    rintro st h1 ⟨c, hc, hcne⟩
    by_cases h0 : matchedAdmin adminLayer code = []
    · have hskip := processRegion_skip e adminLayer bioLayer paLayer cats st code
        (by
          rw [h1]
          rw [show iterFeatures adminLayer
            ⟨some (buildFilter ADMIN_VECTOR_ID_FIELD (pyStr code)), none⟩ =
            matchedAdmin adminLayer code from rfl, h0]
          exact buildWorkingGeom_nil e adminLayer.srs)
      rw [regionLoop, hskip]
      have hcrest : c ∈ rest := by
        rcases List.mem_cons.1 hc with h2 | h2
        · exact absurd (h2 ▸ h0) hcne
        · exact h2
      exact ih _ h1 ⟨c, hcrest, hcne⟩
    · refine ⟨"Source geometry has no spatial reference.", ?_⟩
      rw [regionLoop]
      have : processRegion e adminLayer bioLayer paLayer cats st code =
          .error "Source geometry has no spatial reference." := by
        simp only [processRegion]
        rw [h1]
        rw [show iterFeatures adminLayer
          ⟨some (buildFilter ADMIN_VECTOR_ID_FIELD (pyStr code)), none⟩ =
          matchedAdmin adminLayer code from rfl]
        rw [hA, buildWorkingGeom_no_srs e _ h0]
      rw [this]

/-! ### Attribute-filter string parsing -/

theorem stripPre_append (p r : List Char) : stripPre p (p ++ r) = some r := by
  induction p with
  | nil => rfl
  | cons c t ih => simp [stripPre, ih]

theorem parseLit_cons (c : Char) (rest : List Char) :
    parseLit (c :: rest) =
      if c = '\'' then
        match rest with
        | [] => some []
        | c2 :: rest2 =>
          if c2 = '\'' then (parseLit rest2).map (fun u => '\'' :: u)
          else none
      else (parseLit rest).map (fun u => c :: u) := by
  rw [parseLit.eq_def]

theorem parseLit_clean (v : List Char) (hv : '\'' ∉ v) :
    parseLit (v ++ ['\'']) = some v := by
  induction v with
  | nil => rfl
  | cons c t ih =>
    have hc : c ≠ '\'' := fun h => hv (by simp [h])
    have ht : '\'' ∉ t := fun h => hv (List.mem_cons_of_mem _ h)
    rw [List.cons_append, parseLit_cons, if_neg hc, ih ht]
    rfl

theorem takeWhile_append_stop (p r : List Char)
    (hp : ∀ c ∈ p, (c != ' ') = true) :
    (p ++ ' ' :: r).takeWhile (fun c => c != ' ') = p ∧
    (p ++ ' ' :: r).dropWhile (fun c => c != ' ') = ' ' :: r := by
  induction p with
  | nil => constructor <;> simp [List.takeWhile_cons, List.dropWhile_cons]
  | cons c t ih =>
    have hc := hp c (List.mem_cons_self _ _)
    have ht := ih (fun x hx => hp x (List.mem_cons_of_mem _ hx))
    constructor
    · simp [List.takeWhile_cons, hc, ht.1]
    · simp [List.dropWhile_cons, hc, ht.2]

theorem buildFilter_data (field v : String) :
    (buildFilter field v).data =
      field.data ++ (' ' :: '=' :: ' ' :: '\'' :: (v.data ++ ['\''])) := by
  rw [buildFilter, String.data_append, String.data_append, String.data_append]
  simp

theorem parseEqFilter_build (field v : String)
    (hf : ∀ c ∈ field.data, (c != ' ') = true) :
    parseEqFilter (buildFilter field v) =
      match parseLit (v.data ++ ['\'']) with
      | none => none
      | some u => some (field, String.mk u) := by
  have hsplit := takeWhile_append_stop field.data
    ('=' :: ' ' :: '\'' :: (v.data ++ ['\''])) hf
  have hstrip : stripPre (" = '").data (' ' :: '=' :: ' ' :: '\'' :: (v.data ++ ['\''])) =
      some (v.data ++ ['\'']) := stripPre_append (" = '").data (v.data ++ ['\''])
  simp only [parseEqFilter, buildFilter_data, hsplit.2, hstrip]
  cases hres : parseLit (v.data ++ ['\'']) with
  | none => rfl
  | some u =>
    simp only [hsplit.1]

theorem attrPass_build_clean (field v : String)
    (hf : ∀ c ∈ field.data, (c != ' ') = true) (hv : '\'' ∉ v.data) (f : Feature) :
    attrPass (some (buildFilter field v)) f = (f.field == some v) := by
  rw [attrPass, parseEqFilter_build field v hf, parseLit_clean v.data hv]

theorem escapeQuotes_length_ge (l : List Char) :
    l.length ≤ (escapeQuotes l).length := by
  induction l with
  | nil => simp [escapeQuotes]
  | cons c t ih =>
    by_cases hc : c = '\''
    · simp only [escapeQuotes, if_pos hc, List.length_cons]
      omega
    · simp only [escapeQuotes, if_neg hc, List.length_cons]
      omega

theorem escapeQuotes_ne (l : List Char) (h : '\'' ∈ l) : escapeQuotes l ≠ l := by
  induction l with
  | nil => cases h
  | cons c t ih =>
    by_cases hc : c = '\''
    · subst hc
      simp only [escapeQuotes, if_pos rfl]
      intro he
      have h1 : '\'' :: escapeQuotes t = t := by
        injection he
      have h2 := congrArg List.length h1
      simp only [List.length_cons] at h2
      have := escapeQuotes_length_ge t
      omega
    · have ht : '\'' ∈ t := by
        rcases List.mem_cons.1 h with h1 | h1
        · exact absurd h1.symm hc
        · exact h1
      simp only [escapeQuotes, if_neg hc]
      intro he
      exact ih ht (by injection he)

theorem parseLit_sound : ∀ (u input : List Char), parseLit input = some u →
    input = escapeQuotes u ++ ['\''] := by
  intro u
  induction u with
  | nil =>
    intro input h
    cases input with
    | nil => cases h
    | cons c rest =>
      rw [parseLit_cons] at h
      by_cases hc : c = '\''
      · subst hc
        simp only [if_pos rfl] at h
        cases rest with
        | nil => rfl
        | cons c2 rest2 =>
          by_cases hc2 : c2 = '\''
          · simp only [if_pos hc2] at h
            rcases Option.map_eq_some'.1 h with ⟨u', _, hu'⟩
            cases hu'
          · simp only [if_neg hc2] at h
            cases h
      · simp only [if_neg hc] at h
        rcases Option.map_eq_some'.1 h with ⟨u', _, hu'⟩
        cases hu'
  | cons d u' ih =>
    intro input h
    cases input with
    | nil => cases h
    | cons c rest =>
      rw [parseLit_cons] at h
      by_cases hc : c = '\''
      · subst hc
        simp only [if_pos rfl] at h
        cases rest with
        | nil => cases h
        | cons c2 rest2 =>
          by_cases hc2 : c2 = '\''
          · subst hc2
            simp only [if_pos rfl] at h
            rcases Option.map_eq_some'.1 h with ⟨u2, hu2, hco⟩
            have hd : d = '\'' ∧ u' = u2 := by
              have := hco
              injection this with h1 h2
              exact ⟨h1.symm, h2.symm⟩
            rcases hd with ⟨hd1, hd2⟩
            subst hd1
            subst hd2
            rw [ih rest2 hu2]
            simp [escapeQuotes]
          · simp only [if_neg hc2] at h
            cases h
      · simp only [if_neg hc] at h
        rcases Option.map_eq_some'.1 h with ⟨u2, hu2, hco⟩
        have hd : c = d ∧ u2 = u' := by
          injection hco with h1 h2
          exact ⟨h1, h2⟩
        rcases hd with ⟨hd1, hd2⟩
        subst hd1
        subst hd2
        rw [ih rest hu2]
        simp [escapeQuotes, hc]

theorem attrPass_quoted (field v : String)
    (hf : ∀ c ∈ field.data, (c != ' ') = true) (hq : '\'' ∈ v.data)
    (f : Feature) (hfv : f.field = some v) :
    attrPass (some (buildFilter field v)) f = false := by
  rw [attrPass, parseEqFilter_build field v hf]
  cases hres : parseLit (v.data ++ ['\'']) with
  | none => rfl
  | some u =>
    simp only []
    have hveq : v.data = escapeQuotes u :=
      List.append_cancel_right (parseLit_sound u (v.data ++ ['\'']) hres)
    have hne : v ≠ String.mk u := by
      intro hvu
      have : v.data = u := by rw [hvu]
      rw [this] at hveq hq
      exact escapeQuotes_ne u hq hveq.symm
    rw [hfv]
    simp only [beq_eq_false_iff_ne]
    intro hcon
    have : v = String.mk u := by injection hcon
    exact hne this

/-! ### Summation facts for the triple-overlap bound -/

theorem sum_card_inter_le_nat (l : List Feature) (g : Feature → Shape) :
    ∀ A : Shape, l.Pairwise (fun a b => Disjoint (g a) (g b)) →
    (l.map (fun f => (A ∩ g f).card)).sum ≤ A.card := by
  induction l with
  | nil => intro A _; simp
  | cons a t ih =>
    intro A h
    rcases List.pairwise_cons.1 h with ⟨ha, ht⟩
    have hmap : t.map (fun f => (A ∩ g f).card) =
        t.map (fun f => ((A \ g a) ∩ g f).card) := by
      apply List.map_congr_left
      intro b hb
      congr 1
      ext x
      simp only [Finset.mem_inter, Finset.mem_sdiff]
      constructor
      · rintro ⟨hxA, hxb⟩
        exact ⟨⟨hxA, fun hxa => (Finset.disjoint_left.1 (ha b hb)) hxa hxb⟩, hxb⟩
      · rintro ⟨⟨hxA, _⟩, hxb⟩
        exact ⟨hxA, hxb⟩
    rw [List.map_cons, List.sum_cons, hmap]
    calc (A ∩ g a).card + (t.map (fun f => ((A \ g a) ∩ g f).card)).sum
        ≤ (A ∩ g a).card + (A \ g a).card :=
          Nat.add_le_add_left (ih (A \ g a) ht) _
      _ = A.card := Finset.card_inter_add_card_sdiff A (g a)

theorem sum_card_inter_le (l : List Feature) (g : Feature → Shape) (A : Shape)
    (h : l.Pairwise (fun a b => Disjoint (g a) (g b))) :
    (l.map (fun f => (((A ∩ g f).card : ℕ) : ℚ))).sum ≤ (A.card : ℚ) := by
  have hmm : l.map (fun f => (((A ∩ g f).card : ℕ) : ℚ)) =
      (l.map (fun f => (A ∩ g f).card)).map (Nat.cast : ℕ → ℚ) := by
    rw [List.map_map]; rfl
  rw [hmm, ← Nat.cast_list_sum]
  exact_mod_cast sum_card_inter_le_nat l g A h

theorem filter_sum_mono (l : List Feature) (p q : Feature → Bool)
    (hpq : ∀ f, p f = true → q f = true) (g : Feature → ℚ) (hg : ∀ f, 0 ≤ g f) :
    ((l.filter p).map g).sum ≤ ((l.filter q).map g).sum := by
  induction l with
  | nil => simp
  | cons a t ih =>
    by_cases hp : p a = true
    · rw [List.filter_cons_of_pos hp, List.filter_cons_of_pos (hpq a hp),
        List.map_cons, List.map_cons, List.sum_cons, List.sum_cons]
      exact add_le_add_left ih _
    · rw [List.filter_cons_of_neg (by simpa using hp)]
      by_cases hq : q a = true
      · rw [List.filter_cons_of_pos hq, List.map_cons, List.sum_cons]
        exact ih.trans (le_add_of_nonneg_left (hg a))
      · rw [List.filter_cons_of_neg (by simpa using hq)]
        exact ih

theorem sum_map_add (m : List Feature) (f g : Feature → ℚ) :
    (m.map (fun b => f b + g b)).sum = (m.map f).sum + (m.map g).sum := by
  induction m with
  | nil => simp
  | cons b t ih =>
    simp only [List.map_cons, List.sum_cons, ih]
    ring

theorem sum_map_zero (m : List Feature) : (m.map (fun _ => (0 : ℚ))).sum = 0 := by
  induction m with
  | nil => rfl
  | cons b t ih => simp [ih]

theorem sum_map_swap (l m : List Feature) (h : Feature → Feature → ℚ) :
    (l.map (fun a => (m.map (h a)).sum)).sum =
      (m.map (fun b => (l.map (fun a => h a b)).sum)).sum := by
  induction l with
  | nil =>
    simp only [List.map_nil, List.sum_nil]
    rw [sum_map_zero]
  | cons a t ih =>
    simp only [List.map_cons, List.sum_cons, ih]
    rw [← sum_map_add]

theorem spatialPass_mono (f : Feature) (g1 g2 : Geom) (hsub : g1.shape ⊆ g2.shape) :
    spatialPass (some g1) f = true → spatialPass (some g2) f = true := by
  simp only [spatialPass]
  by_cases h1 : f.shape ∩ g1.shape = ∅
  · simp [h1]
  · by_cases h2 : f.shape ∩ g2.shape = ∅
    · exfalso
      apply h1
      rw [← Finset.subset_empty, ← h2]
      exact Finset.inter_subset_inter (Finset.Subset.refl _) hsub
    · simp [h1, h2]

theorem tri_le_pa (e : GeoEngine) (bioLayer : Layer) (bsrs : ℕ) (paLayer : Layer)
    (psrs : ℕ) (cat : Option String) (W : Geom)
    (hbio : bioLayer.features.Pairwise (fun a b =>
      Disjoint (transformShape e bsrs a.shape) (transformShape e bsrs b.shape))) :
    triOverlapSpec e bioLayer bsrs paLayer psrs cat W ≤
      paOverlapSpec e paLayer psrs cat W := by
  apply List.sum_le_sum
  intro pf _
  have hfil : (bioLayer.features.filter
      (fun f => spatialPass (some (catInterGeom e psrs W pf)) f)).Pairwise
      (fun a b => Disjoint (transformShape e bsrs a.shape) (transformShape e bsrs b.shape)) :=
    hbio.filter _
  have := sum_card_inter_le
    (bioLayer.features.filter
      (fun f => spatialPass (some (catInterGeom e psrs W pf)) f))
    (fun f => transformShape e bsrs f.shape) (catInterGeom e psrs W pf).shape hfil
  simpa [triPartSpec, Geom.area] using this

theorem tri_le_bio (e : GeoEngine) (bioLayer : Layer) (bsrs : ℕ) (paLayer : Layer)
    (psrs : ℕ) (cat : Option String) (W : Geom)
    (hpa : paLayer.features.Pairwise (fun a b =>
      Disjoint (simpTransShape e psrs a.shape) (simpTransShape e psrs b.shape))) :
    triOverlapSpec e bioLayer bsrs paLayer psrs cat W ≤
      bioOverlapSpec e bioLayer bsrs W := by
  have hpaM : (paMatchedSpec paLayer cat W).Pairwise (fun a b =>
      Disjoint (simpTransShape e psrs a.shape) (simpTransShape e psrs b.shape)) :=
    hpa.filter _
  -- Step 1: widen each inner biodiversity filter from the intersection to W.
  have step1 : triOverlapSpec e bioLayer bsrs paLayer psrs cat W ≤
      ((paMatchedSpec paLayer cat W).map (fun pf =>
        ((bioLayer.features.filter (fun f => spatialPass (some W) f)).map
          (fun bf => ((((catInterGeom e psrs W pf).shape ∩
            transformShape e bsrs bf.shape).card : ℕ) : ℚ))).sum)).sum := by
    apply List.sum_le_sum
    intro pf _
    apply filter_sum_mono
    · intro f hf
      apply spatialPass_mono f (catInterGeom e psrs W pf) W _ hf
      exact Finset.inter_subset_left
    · intro f
      positivity
  -- Step 2: swap the two summations and bound each biodiversity feature's
  -- total by its overlap with W, using disjointness of protected areas.
  have step2 : ((paMatchedSpec paLayer cat W).map (fun pf =>
      ((bioLayer.features.filter (fun f => spatialPass (some W) f)).map
        (fun bf => ((((catInterGeom e psrs W pf).shape ∩
          transformShape e bsrs bf.shape).card : ℕ) : ℚ))).sum)).sum ≤
      bioOverlapSpec e bioLayer bsrs W := by
    rw [sum_map_swap]
    apply List.sum_le_sum
    intro bf _
    have hcongr : (paMatchedSpec paLayer cat W).map (fun pf =>
        ((((catInterGeom e psrs W pf).shape ∩
          transformShape e bsrs bf.shape).card : ℕ) : ℚ)) =
        (paMatchedSpec paLayer cat W).map (fun pf =>
        ((((W.shape ∩ transformShape e bsrs bf.shape) ∩
          simpTransShape e psrs pf.shape).card : ℕ) : ℚ)) := by
      apply List.map_congr_left
      intro pf _
      congr 2
      show (W.shape ∩ simpTransShape e psrs pf.shape) ∩
          transformShape e bsrs bf.shape =
        (W.shape ∩ transformShape e bsrs bf.shape) ∩ simpTransShape e psrs pf.shape
      rw [Finset.inter_right_comm]
    rw [hcongr]
    exact sum_card_inter_le (paMatchedSpec paLayer cat W)
      (fun pf => simpTransShape e psrs pf.shape)
      (W.shape ∩ transformShape e bsrs bf.shape) hpaM
  exact step1.trans step2

/-! ### Concrete fixtures used by witnesses and counterexamples -/

/-- A geometry engine whose transformation and simplification are the
identity: the simplest engine satisfying the primitives' contract. -/
def idEngine : GeoEngine := ⟨fun _ _ s => s, fun _ s => s⟩

/-- One admin feature, code `A`, covering cells 0 and 1. -/
def adminW : Layer := ⟨[⟨some "A", {0, 1}⟩], some 4326⟩

/-- One biodiversity feature covering cell 0. -/
def bioW : Layer := ⟨[⟨none, {0}⟩], some 4326⟩

/-- One protected-area feature, category `II`, covering cell 1. -/
def paW : Layer := ⟨[⟨some "II", {1}⟩], some 4326⟩

/-- An admin layer whose single feature has a null region code. -/
def adminX : Layer := ⟨[⟨none, {0}⟩], some 4326⟩

/-- A layer with no features. -/
def emptyLayer : Layer := ⟨[], some 4326⟩

/-- Admin layer for the C5 counterexample: code `A` on cell 0. -/
def adminC5 : Layer := ⟨[⟨some "A", {0}⟩], some 4326⟩

/-- Biodiversity layer for the C5 counterexample: one feature on cell 0. -/
def bioC5 : Layer := ⟨[⟨none, {0}⟩], some 4326⟩

/-- Protected-area layer for the C5 counterexample: two coincident category
`II` features on cell 0 (overlapping protected-area polygons, as in real
protected-area data). -/
def paC5 : Layer := ⟨[⟨some "II", {0}⟩, ⟨some "II", {0}⟩], some 4326⟩

/-- Admin layer with no spatial reference, for C8. -/
def adminNoSrs : Layer := ⟨[⟨some "A", {0}⟩], none⟩

/-- Protected-area layer with a null-category feature, for C9. -/
def paNull : Layer := ⟨[⟨none, {0}⟩], some 4326⟩

/-! ### The claims -/

/-- C1: for every region whose merged admin geometry is non-empty, the
reported biodiversity overlap equals the sum, over every biodiversity
feature passing the spatial filter by the region's working geometry, of
the area of the intersection of the working geometry with that feature's
geometry reprojected to the working SRS (no simplification applied to
biodiversity geometries), divided by 10000 to convert to hectares. -/
theorem c1_biodiversity_overlap (e : GeoEngine) (adminLayer bioLayer paLayer : Layer)
    (cats : List (Option String)) (st : RunState) (code : Option String)
    (bsrs psrs : ℕ) (W : Geom)
    (hB : bioLayer.srs = some bsrs) (hP : paLayer.srs = some psrs)
    (hAF : st.adminF.spatialFilter = none) (hBF : st.bioF.attrFilter = none)
    (hW : buildWorkingGeom e adminLayer.srs (matchedAdmin adminLayer code) =
      .ok (some W)) :
    ∃ st' en, processRegion e adminLayer bioLayer paLayer cats st code = .ok st' ∧
      dictLookup st'.results code = some en ∧
      getKey en bioKey = some (bioOverlapSpec e bioLayer bsrs W / 10000) := by
  rw [processRegion_ok e adminLayer bioLayer paLayer cats st code bsrs psrs W
    hB hP hAF hBF hW]
  refine ⟨_,
    catFoldEntry e bioLayer bsrs paLayer psrs W
      (setKey ((dictLookup st.results code).getD []) bioKey
        (bioOverlapSpec e bioLayer bsrs W / 10000)) cats,
    rfl, ?_, ?_⟩
  · exact catFoldResults_lookup_code e bioLayer bsrs paLayer psrs W code cats _ _
      (dictLookup_setEntry_same st.results code bioKey _)
  · rw [catFoldEntry_getKey_bio, getKey_setKey_same]

/-- C1 witness: the theorem applied to a concrete one-feature world. -/
theorem c1_witness :
    ∃ st' en, processRegion idEngine adminW bioW paW [] initState (some "A") =
        .ok st' ∧
      dictLookup st'.results (some "A") = some en ∧
      getKey en bioKey =
        some (bioOverlapSpec idEngine bioW 4326 ⟨some TARGET_EPSG, {0, 1}⟩ / 10000) :=
  c1_biodiversity_overlap idEngine adminW bioW paW [] initState (some "A")
    4326 4326 ⟨some TARGET_EPSG, {0, 1}⟩ rfl rfl rfl rfl rfl

/-- C2: for every region with a non-empty working geometry and every
category, the accumulator filters the protected-area layer by the
interpolated category-equality filter AND spatial intersection with the
working geometry; for each matching feature it reprojects to the working
SRS, simplifies with the admin tolerance, intersects with the working
geometry, and sums those areas into the category's protected-area total;
the triple total re-filters the biodiversity layer spatially by each
`regionCategoryIntersection` and sums the reprojected biodiversity
intersections with it. -/
theorem c2_category_overlaps (e : GeoEngine) (bioLayer paLayer : Layer)
    (code : Option String) (W : Geom) (st : RunState) (cat : Option String)
    (bsrs psrs : ℕ) (hB : bioLayer.srs = some bsrs) (hP : paLayer.srs = some psrs)
    (hBF : st.bioF.attrFilter = none) :
    ∃ st' en, processCategory e bioLayer paLayer code W st cat = .ok st' ∧
      st'.paF = ⟨some (buildFilter PROTECTED_AREAS_FIELD (pyStr cat)), some W⟩ ∧
      paMatchedSpec paLayer cat W = paLayer.features.filter
        (fun f => attrPass (some (buildFilter PROTECTED_AREAS_FIELD (pyStr cat))) f &&
          spatialPass (some W) f) ∧
      dictLookup st'.results code = some en ∧
      getKey en (paKey cat) = some (paOverlapSpec e paLayer psrs cat W / 10000) ∧
      getKey en (triKey cat) =
        some (triOverlapSpec e bioLayer bsrs paLayer psrs cat W / 10000) := by
  rw [processCategory_ok e bioLayer paLayer code W st cat bsrs psrs hB hP hBF]
  refine ⟨_,
    setKey
      (setKey ((dictLookup st.results code).getD []) (paKey cat)
        (paOverlapSpec e paLayer psrs cat W / 10000))
      (triKey cat) (triOverlapSpec e bioLayer bsrs paLayer psrs cat W / 10000),
    rfl, rfl, rfl, ?_, ?_, ?_⟩
  · rw [dictLookup_setEntry_same, dictLookup_setEntry_same]
    rfl
  · rw [getKey_setKey_other _ _ _ _ (paKey_ne_triKey cat cat), getKey_setKey_same]
  · rw [getKey_setKey_same]

/-- C2 witness: the theorem applied to a concrete one-feature world. -/
theorem c2_witness :
    ∃ st' en, processCategory idEngine bioW paW (some "A")
        ⟨some TARGET_EPSG, {0, 1}⟩ initState (some "II") = .ok st' ∧
      st'.paF = ⟨some (buildFilter PROTECTED_AREAS_FIELD (pyStr (some "II"))),
        some ⟨some TARGET_EPSG, {0, 1}⟩⟩ ∧
      paMatchedSpec paW (some "II") ⟨some TARGET_EPSG, {0, 1}⟩ =
        paW.features.filter
          (fun f => attrPass
            (some (buildFilter PROTECTED_AREAS_FIELD (pyStr (some "II")))) f &&
            spatialPass (some ⟨some TARGET_EPSG, {0, 1}⟩) f) ∧
      dictLookup st'.results (some "A") = some en ∧
      getKey en (paKey (some "II")) =
        some (paOverlapSpec idEngine paW 4326 (some "II")
          ⟨some TARGET_EPSG, {0, 1}⟩ / 10000) ∧
      getKey en (triKey (some "II")) =
        some (triOverlapSpec idEngine bioW 4326 paW 4326 (some "II")
          ⟨some TARGET_EPSG, {0, 1}⟩ / 10000) :=
  c2_category_overlaps idEngine bioW paW (some "A") ⟨some TARGET_EPSG, {0, 1}⟩
    initState (some "II") 4326 4326 rfl rfl rfl

/-- C3: the working geometry of a region is produced by exactly this
sequence: filter the admin layer by the region code, fold the matching
geometries with union (the first match seeding the fold, so the merge is
the plain union of the matched shapes), assign the admin layer's native
SRS, reproject to the working SRS, and only then simplify with the
configured tolerance. -/
theorem c3_working_geometry (e : GeoEngine) (adminLayer : Layer)
    (code : Option String) (asrs : ℕ) (hA : adminLayer.srs = some asrs)
    (hne : matchedAdmin adminLayer code ≠ []) :
    mergeAdminGeom (matchedAdmin adminLayer code) =
      some ⟨none, unionShapes (matchedAdmin adminLayer code)⟩ ∧
    buildWorkingGeom e adminLayer.srs (matchedAdmin adminLayer code) =
      .ok (some ⟨some TARGET_EPSG,
        e.simplifyShape SIMPLIFY_TOLERANCE
          (e.transform asrs TARGET_EPSG
            (unionShapes (matchedAdmin adminLayer code)))⟩) := by
  constructor
  · cases h : matchedAdmin adminLayer code with
    | nil => exact absurd h hne
    | cons f t => rw [mergeAdminGeom_cons]
  · rw [hA]
    exact buildWorkingGeom_eq e asrs _ hne

/-- C3 witness: the theorem applied to a concrete one-feature world. -/
theorem c3_witness :
    mergeAdminGeom (matchedAdmin adminW (some "A")) =
      some ⟨none, unionShapes (matchedAdmin adminW (some "A"))⟩ ∧
    buildWorkingGeom idEngine adminW.srs (matchedAdmin adminW (some "A")) =
      .ok (some ⟨some TARGET_EPSG,
        idEngine.simplifyShape SIMPLIFY_TOLERANCE
          (idEngine.transform 4326 TARGET_EPSG
            (unionShapes (matchedAdmin adminW (some "A"))))⟩) :=
  c3_working_geometry idEngine adminW (some "A") 4326 rfl (by decide)

/-- C4 counterexample: a run whose only region code is null matches no
admin feature, so the region is skipped through `continue` — and the admin
attribute filter set during that region's iteration is still set when the
loop ends, never cleared.  This refutes the claim that every filter set
during every (including skipped) region's iteration is cleared before the
next region's processing begins. -/
theorem c4_counterexample :
    main idEngine adminX emptyLayer emptyLayer =
      .ok ⟨⟨some "iso3 = 'None'", none⟩, ⟨none, none⟩, ⟨none, none⟩, []⟩ ∧
    (some "iso3 = 'None'" : Option String) ≠ none := by
  constructor
  · rfl
  · simp

/-- C4 amended: for a region whose merged geometry is non-empty, every
filter set during its iteration is cleared at the end (admin attribute and
spatial, biodiversity spatial, protected-area attribute and spatial); but
for a skipped region the admin attribute filter set at the start of its
iteration is left in place, with everything else unchanged. -/
theorem c4_filters_cleared (e : GeoEngine) (adminLayer bioLayer paLayer : Layer)
    (cats : List (Option String)) (st : RunState) (code : Option String)
    (bsrs psrs : ℕ) (W : Geom)
    (hB : bioLayer.srs = some bsrs) (hP : paLayer.srs = some psrs)
    (hAF : st.adminF.spatialFilter = none) (hBF : st.bioF.attrFilter = none) :
    (buildWorkingGeom e adminLayer.srs (matchedAdmin adminLayer code) = .ok none →
      processRegion e adminLayer bioLayer paLayer cats st code =
        .ok ⟨⟨some (buildFilter ADMIN_VECTOR_ID_FIELD (pyStr code)), none⟩,
          st.bioF, st.paF, st.results⟩) ∧
    (buildWorkingGeom e adminLayer.srs (matchedAdmin adminLayer code) =
        .ok (some W) →
      ∃ st', processRegion e adminLayer bioLayer paLayer cats st code = .ok st' ∧
        st'.adminF = ⟨none, none⟩ ∧ st'.bioF = ⟨none, none⟩ ∧
        st'.paF = ⟨none, none⟩) := by
  constructor
  · intro hW
    have := processRegion_skip e adminLayer bioLayer paLayer cats st code
      (by rw [hAF]; exact hW)
    rw [this, hAF]
  · intro hW
    rw [processRegion_ok e adminLayer bioLayer paLayer cats st code bsrs psrs W
      hB hP hAF hBF hW]
    exact ⟨_, rfl, rfl, rfl, rfl⟩

/-- C4 amended witness: the theorem applied to a concrete world whose
region `A` has a geometry. -/
theorem c4_witness :
    (buildWorkingGeom idEngine adminW.srs (matchedAdmin adminW (some "A")) =
        .ok none →
      processRegion idEngine adminW bioW paW [] initState (some "A") =
        .ok ⟨⟨some (buildFilter ADMIN_VECTOR_ID_FIELD (pyStr (some "A"))), none⟩,
          initState.bioF, initState.paF, initState.results⟩) ∧
    (buildWorkingGeom idEngine adminW.srs (matchedAdmin adminW (some "A")) =
        .ok (some ⟨some TARGET_EPSG, {0, 1}⟩) →
      ∃ st', processRegion idEngine adminW bioW paW [] initState (some "A") =
          .ok st' ∧
        st'.adminF = ⟨none, none⟩ ∧ st'.bioF = ⟨none, none⟩ ∧
        st'.paF = ⟨none, none⟩) :=
  c4_filters_cleared idEngine adminW bioW paW [] initState (some "A")
    4326 4326 ⟨some TARGET_EPSG, {0, 1}⟩ rfl rfl rfl rfl

/-- The working geometry of region `A` in the C5 counterexample world. -/
def Wc5 : Geom := ⟨some TARGET_EPSG, {0}⟩

theorem c5_bio_value : bioOverlapSpec idEngine bioC5 4326 Wc5 = 1 := by
  rw [bioOverlapSpec]
  rw [show bioC5.features.filter (fun f => spatialPass (some Wc5) f) =
    [⟨none, {0}⟩] from by decide]
  rw [List.map_cons, List.map_nil, List.sum_cons, List.sum_nil]
  rw [show ((Wc5.shape ∩
    transformShape idEngine 4326 (⟨none, ({0} : Finset ℕ)⟩ : Feature).shape).card)
    = 1 from by decide]
  norm_num

theorem c5_pa_value :
    paOverlapSpec idEngine paC5 4326 (some "II") Wc5 = 2 := by
  rw [paOverlapSpec]
  rw [show paMatchedSpec paC5 (some "II") Wc5 =
    [⟨some "II", {0}⟩, ⟨some "II", {0}⟩] from by decide]
  rw [List.map_cons, List.map_cons, List.map_nil, List.sum_cons, List.sum_cons,
    List.sum_nil]
  rw [show (catInterGeom idEngine 4326 Wc5 ⟨some "II", {0}⟩).area =
    ((1 : ℕ) : ℚ) from by
      rw [Geom.area]
      rw [show (catInterGeom idEngine 4326 Wc5 ⟨some "II", {0}⟩).shape.card = 1
        from by decide]]
  norm_num

theorem c5_tri_value :
    triOverlapSpec idEngine bioC5 4326 paC5 4326 (some "II") Wc5 = 2 := by
  rw [triOverlapSpec]
  rw [show paMatchedSpec paC5 (some "II") Wc5 =
    [⟨some "II", {0}⟩, ⟨some "II", {0}⟩] from by decide]
  rw [List.map_cons, List.map_cons, List.map_nil, List.sum_cons, List.sum_cons,
    List.sum_nil]
  have hpart : triPartSpec idEngine bioC5 4326
      (catInterGeom idEngine 4326 Wc5 ⟨some "II", {0}⟩) = 1 := by
    rw [triPartSpec]
    rw [show bioC5.features.filter (fun f => spatialPass
      (some (catInterGeom idEngine 4326 Wc5 ⟨some "II", {0}⟩)) f) =
      [⟨none, {0}⟩] from by decide]
    rw [List.map_cons, List.map_nil, List.sum_cons, List.sum_nil]
    rw [show (((catInterGeom idEngine 4326 Wc5 ⟨some "II", {0}⟩).shape ∩
      transformShape idEngine 4326
        (⟨none, ({0} : Finset ℕ)⟩ : Feature).shape).card) = 1 from by decide]
    norm_num
  rw [hpart]
  norm_num

/-- C5 counterexample: with two coincident protected-area features in one
category (overlapping protected-area polygons, which the real data
contains), the computed triple overlap is 2 cells while the biodiversity
overlap is 1 cell: `triple_overlap_area ≤ min(biodiversity, protected)` is
violated by the code as written, because overlapping features are
double-counted. -/
theorem c5_counterexample :
    ∃ st' en,
      main idEngine adminC5 bioC5 paC5 = .ok st' ∧
      dictLookup st'.results (some "A") = some en ∧
      getKey en bioKey = some ((1 : ℚ) / 10000) ∧
      getKey en (paKey (some "II")) = some ((2 : ℚ) / 10000) ∧
      getKey en (triKey (some "II")) = some ((2 : ℚ) / 10000) ∧
      ¬ ((2 : ℚ) / 10000 ≤ min ((1 : ℚ) / 10000) ((2 : ℚ) / 10000)) := by
  have hmain : main idEngine adminC5 bioC5 paC5 =
      regionLoop idEngine adminC5 bioC5 paC5 [some "II"] initState [some "A"] :=
    rfl
  rw [hmain, regionLoop]
  rw [processRegion_ok idEngine adminC5 bioC5 paC5 [some "II"] initState
    (some "A") 4326 4326 Wc5 rfl rfl rfl rfl rfl]
  refine ⟨_,
    catFoldEntry idEngine bioC5 4326 paC5 4326 Wc5
      (setKey ((dictLookup initState.results (some "A")).getD []) bioKey
        (bioOverlapSpec idEngine bioC5 4326 Wc5 / 10000)) [some "II"],
    rfl, ?_, ?_, ?_, ?_, by norm_num⟩
  · exact catFoldResults_lookup_code idEngine bioC5 4326 paC5 4326 Wc5 (some "A")
      [some "II"] _ _ (dictLookup_setEntry_same initState.results (some "A") bioKey _)
  · rw [catFoldEntry_getKey_bio, getKey_setKey_same, c5_bio_value]
  · rw [catFoldEntry_getKey_pa idEngine bioC5 4326 paC5 4326 Wc5 [some "II"]
      (some "II") (by decide) (by decide), c5_pa_value]
  · rw [catFoldEntry_getKey_tri idEngine bioC5 4326 paC5 4326 Wc5 [some "II"]
      (some "II") (by decide) (by decide), c5_tri_value]

/-- C5 amended: when the reprojected biodiversity geometries are pairwise
disjoint and the reprojected-and-simplified protected-area geometries are
pairwise disjoint (no double counting within a layer), every region's
computed triple overlap for a category is at most the minimum of its
biodiversity overlap and that category's protected-area overlap. -/
theorem c5_triple_le_min (e : GeoEngine) (adminLayer bioLayer paLayer : Layer)
    (cats : List (Option String)) (st : RunState) (code : Option String)
    (bsrs psrs : ℕ) (W : Geom)
    (hB : bioLayer.srs = some bsrs) (hP : paLayer.srs = some psrs)
    (hAF : st.adminF.spatialFilter = none) (hBF : st.bioF.attrFilter = none)
    (hW : buildWorkingGeom e adminLayer.srs (matchedAdmin adminLayer code) =
      .ok (some W))
    (hN : (cats.map pyStr).Nodup)
    (hbio : bioLayer.features.Pairwise (fun a b =>
      Disjoint (transformShape e bsrs a.shape) (transformShape e bsrs b.shape)))
    (hpa : paLayer.features.Pairwise (fun a b =>
      Disjoint (simpTransShape e psrs a.shape) (simpTransShape e psrs b.shape)))
    (cat : Option String) (hc : cat ∈ cats) :
    ∃ st' en b p t,
      processRegion e adminLayer bioLayer paLayer cats st code = .ok st' ∧
      dictLookup st'.results code = some en ∧
      getKey en bioKey = some b ∧ getKey en (paKey cat) = some p ∧
      getKey en (triKey cat) = some t ∧ t ≤ min b p := by
  rw [processRegion_ok e adminLayer bioLayer paLayer cats st code bsrs psrs W
    hB hP hAF hBF hW]
  refine ⟨_,
    catFoldEntry e bioLayer bsrs paLayer psrs W
      (setKey ((dictLookup st.results code).getD []) bioKey
        (bioOverlapSpec e bioLayer bsrs W / 10000)) cats,
    bioOverlapSpec e bioLayer bsrs W / 10000,
    paOverlapSpec e paLayer psrs cat W / 10000,
    triOverlapSpec e bioLayer bsrs paLayer psrs cat W / 10000,
    rfl, ?_, ?_, ?_, ?_, ?_⟩
  · exact catFoldResults_lookup_code e bioLayer bsrs paLayer psrs W code cats _ _
      (dictLookup_setEntry_same st.results code bioKey _)
  · rw [catFoldEntry_getKey_bio, getKey_setKey_same]
  · exact catFoldEntry_getKey_pa e bioLayer bsrs paLayer psrs W cats cat hN hc _
  · exact catFoldEntry_getKey_tri e bioLayer bsrs paLayer psrs W cats cat hN hc _
  · apply le_min
    · exact (div_le_div_right (by norm_num : (0 : ℚ) < 10000)).2
        (tri_le_bio e bioLayer bsrs paLayer psrs cat W hpa)
    · exact (div_le_div_right (by norm_num : (0 : ℚ) < 10000)).2
        (tri_le_pa e bioLayer bsrs paLayer psrs cat W hbio)

/-- C5 amended witness: the theorem applied to a concrete world with
disjoint features. -/
theorem c5_witness :
    ∃ st' en b p t,
      processRegion idEngine adminW bioW paW [some "II"] initState (some "A") =
        .ok st' ∧
      dictLookup st'.results (some "A") = some en ∧
      getKey en bioKey = some b ∧ getKey en (paKey (some "II")) = some p ∧
      getKey en (triKey (some "II")) = some t ∧ t ≤ min b p :=
  c5_triple_le_min idEngine adminW bioW paW [some "II"] initState (some "A")
    4326 4326 ⟨some TARGET_EPSG, {0, 1}⟩ rfl rfl rfl rfl rfl (by decide)
    (by decide) (by decide) (some "II") (by decide)

/-- C6: every accumulated area value is non-negative (each running sum is
seeded at zero and accumulates non-negative areas), and for every region
with a non-empty working geometry, every category observed in the
protected-area layer appears in that region's result with both its
protected-area overlap and its triple overlap recorded — exactly 0 when
nothing overlaps, never absent. -/
theorem c6_nonneg_and_complete (e : GeoEngine)
    (adminLayer bioLayer paLayer : Layer) (cats : List (Option String))
    (st : RunState) (code : Option String) (bsrs psrs : ℕ) (W : Geom)
    (hB : bioLayer.srs = some bsrs) (hP : paLayer.srs = some psrs)
    (hAF : st.adminF.spatialFilter = none) (hBF : st.bioF.attrFilter = none)
    (hW : buildWorkingGeom e adminLayer.srs (matchedAdmin adminLayer code) =
      .ok (some W))
    (hres : allNonneg st.results) (hN : (cats.map pyStr).Nodup) :
    ∃ st' en, processRegion e adminLayer bioLayer paLayer cats st code = .ok st' ∧
      allNonneg st'.results ∧
      dictLookup st'.results code = some en ∧
      ∀ cat ∈ cats,
        getKey en (paKey cat) = some (paOverlapSpec e paLayer psrs cat W / 10000) ∧
        getKey en (triKey cat) =
          some (triOverlapSpec e bioLayer bsrs paLayer psrs cat W / 10000) ∧
        (paMatchedSpec paLayer cat W = [] →
          getKey en (paKey cat) = some 0 ∧ getKey en (triKey cat) = some 0) := by
  rw [processRegion_ok e adminLayer bioLayer paLayer cats st code bsrs psrs W
    hB hP hAF hBF hW]
  refine ⟨_,
    catFoldEntry e bioLayer bsrs paLayer psrs W
      (setKey ((dictLookup st.results code).getD []) bioKey
        (bioOverlapSpec e bioLayer bsrs W / 10000)) cats,
    rfl, ?_, ?_, ?_⟩
  · apply catFoldResults_nonneg
    apply allNonneg_setEntry hres
    exact div_nonneg (bioOverlapSpec_nonneg e bioLayer bsrs W) (by norm_num)
  · exact catFoldResults_lookup_code e bioLayer bsrs paLayer psrs W code cats _ _
      (dictLookup_setEntry_same st.results code bioKey _)
  · intro cat hc
    have hpa := catFoldEntry_getKey_pa e bioLayer bsrs paLayer psrs W cats cat hN hc
      (setKey ((dictLookup st.results code).getD []) bioKey
        (bioOverlapSpec e bioLayer bsrs W / 10000))
    have htri := catFoldEntry_getKey_tri e bioLayer bsrs paLayer psrs W cats cat hN hc
      (setKey ((dictLookup st.results code).getD []) bioKey
        (bioOverlapSpec e bioLayer bsrs W / 10000))
    refine ⟨hpa, htri, ?_⟩
    intro hempty
    constructor
    · rw [hpa, paOverlapSpec, hempty]
      norm_num
    · rw [htri, triOverlapSpec, hempty]
      norm_num

/-- C6 witness: the theorem applied to a concrete one-feature world. -/
theorem c6_witness :
    ∃ st' en, processRegion idEngine adminW bioW paW [some "II"] initState
        (some "A") = .ok st' ∧
      allNonneg st'.results ∧
      dictLookup st'.results (some "A") = some en ∧
      ∀ cat ∈ [some "II"],
        getKey en (paKey cat) = some (paOverlapSpec idEngine paW 4326 cat
          ⟨some TARGET_EPSG, {0, 1}⟩ / 10000) ∧
        getKey en (triKey cat) = some (triOverlapSpec idEngine bioW 4326 paW 4326
          cat ⟨some TARGET_EPSG, {0, 1}⟩ / 10000) ∧
        (paMatchedSpec paW cat ⟨some TARGET_EPSG, {0, 1}⟩ = [] →
          getKey en (paKey cat) = some 0 ∧ getKey en (triKey cat) = some 0) :=
  c6_nonneg_and_complete idEngine adminW bioW paW [some "II"] initState
    (some "A") 4326 4326 ⟨some TARGET_EPSG, {0, 1}⟩ rfl rfl rfl rfl rfl
    (by intro p hp; cases hp) (by decide)

/-- C7: a region code matching zero admin features is skipped without
error: the run completes, the result store holds no entry for that code,
and the reporter emits no block for it. -/
theorem c7_empty_region_skipped (e : GeoEngine)
    (adminLayer bioLayer paLayer : Layer) (asrs bsrs psrs : ℕ)
    (hA : adminLayer.srs = some asrs) (hB : bioLayer.srs = some bsrs)
    (hP : paLayer.srs = some psrs) (c : Option String)
    (hzero : matchedAdmin adminLayer c = []) :
    ∃ st', main e adminLayer bioLayer paLayer = .ok st' ∧
      dictLookup st'.results c = none ∧
      ∀ b ∈ reportBlocks st', b.1 ≠ c := by
  obtain ⟨st', h1, h2⟩ := regionLoop_preserves e adminLayer bioLayer paLayer
    (distinctVals (paLayer.features.map Feature.field)) asrs bsrs psrs hA hB hP
    c hzero (distinctVals (adminLayer.features.map Feature.field)) initState
    rfl rfl rfl
  refine ⟨st', h1, h2, ?_⟩
  intro b hb
  rcases List.mem_map.1 hb with ⟨p, hp, rfl⟩
  exact (dictLookup_none_iff _ _).1 h2 p hp

/-- C7 witness: code `B` matches nothing in the concrete world. -/
theorem c7_witness :
    ∃ st', main idEngine adminW bioW paW = .ok st' ∧
      dictLookup st'.results (some "B") = none ∧
      ∀ b ∈ reportBlocks st', b.1 ≠ some "B" :=
  c7_empty_region_skipped idEngine adminW bioW paW 4326 4326 4326 rfl rfl rfl
    (some "B") (by decide)

/-- C8: `reproject_geometry` fails with the missing-reference error exactly
when the geometry carries no source coordinate system, and such a failure
propagates as an unrecoverable failure of the whole run — `main` returns
the error and no results — rather than the offending feature being
skipped. -/
theorem c8_missing_reference_fatal (e : GeoEngine)
    (adminLayer bioLayer paLayer : Layer) (hA : adminLayer.srs = none)
    (hex : ∃ c ∈ distinctVals (adminLayer.features.map Feature.field),
      matchedAdmin adminLayer c ≠ []) :
    (∀ (g : Geom) (t : ℕ), g.srs = none →
      reproject_geometry e g t = .error "Source geometry has no spatial reference.") ∧
    (∀ (g : Geom) (s t : ℕ), g.srs = some s →
      reproject_geometry e g t = .ok ⟨some t, e.transform s t g.shape⟩) ∧
    ∃ msg, main e adminLayer bioLayer paLayer = .error msg := by
  refine ⟨?_, ?_, ?_⟩
  · intro g t hg
    rw [reproject_geometry, hg]
  · intro g s t hg
    rw [reproject_geometry, hg]
  · exact regionLoop_err e adminLayer bioLayer paLayer
      (distinctVals (paLayer.features.map Feature.field)) hA
      (distinctVals (adminLayer.features.map Feature.field)) initState rfl hex

/-- C8 witness: an admin layer without a spatial reference aborts the run. -/
theorem c8_witness :
    (∀ (g : Geom) (t : ℕ), g.srs = none →
      reproject_geometry idEngine g t =
        .error "Source geometry has no spatial reference.") ∧
    (∀ (g : Geom) (s t : ℕ), g.srs = some s →
      reproject_geometry idEngine g t = .ok ⟨some t, idEngine.transform s t g.shape⟩) ∧
    ∃ msg, main idEngine adminNoSrs bioW paW = .error msg :=
  c8_missing_reference_fatal idEngine adminNoSrs bioW paW rfl
    ⟨some "A", by decide, by decide⟩

/-- C9: a null protected-area category value lands in the distinct-category
set; the filter built for it compares the category field against the
four-character string `None` (the textual rendering of the null), the
bucket is keyed `pa_overlap_ha_None`/`bio_pa_overlap_ha_None`, and the
bucket accumulates only features whose field literally equals the string
`None` — never the null-valued features themselves. -/
theorem c9_null_category_bucket (paLayer : Layer) (W : Geom) (f0 : Feature)
    (h0 : f0 ∈ paLayer.features) (hf0 : f0.field = none) :
    none ∈ distinctVals (paLayer.features.map Feature.field) ∧
    buildFilter PROTECTED_AREAS_FIELD (pyStr none) = "IUCN_CAT = 'None'" ∧
    paKey none = "pa_overlap_ha_None" ∧
    triKey none = "bio_pa_overlap_ha_None" ∧
    (∀ f : Feature,
      attrPass (some (buildFilter PROTECTED_AREAS_FIELD (pyStr none))) f =
        (f.field == some "None")) ∧
    paMatchedSpec paLayer none W = paLayer.features.filter
      (fun f => f.field == some "None" && spatialPass (some W) f) ∧
    f0 ∉ paMatchedSpec paLayer none W := by
  have hattr : ∀ f : Feature,
      attrPass (some (buildFilter PROTECTED_AREAS_FIELD (pyStr none))) f =
        (f.field == some "None") := by
    intro f
    exact attrPass_build_clean PROTECTED_AREAS_FIELD "None" (by decide) (by decide) f
  have hmatched : paMatchedSpec paLayer none W = paLayer.features.filter
      (fun f => f.field == some "None" && spatialPass (some W) f) := by
    apply List.filter_congr
    intro f _
    rw [hattr f]
  refine ⟨?_, rfl, rfl, rfl, hattr, hmatched, ?_⟩
  · apply mem_distinctVals
    rw [← hf0]
    exact List.mem_map_of_mem Feature.field h0
  · rw [hmatched]
    intro hmem
    have := (List.mem_filter.1 hmem).2
    rw [hf0] at this
    simp at this

/-- C9 witness: the theorem applied to a layer with one null-category
feature. -/
theorem c9_witness :
    none ∈ distinctVals (paNull.features.map Feature.field) ∧
    buildFilter PROTECTED_AREAS_FIELD (pyStr none) = "IUCN_CAT = 'None'" ∧
    paKey none = "pa_overlap_ha_None" ∧
    triKey none = "bio_pa_overlap_ha_None" ∧
    (∀ f : Feature,
      attrPass (some (buildFilter PROTECTED_AREAS_FIELD (pyStr none))) f =
        (f.field == some "None")) ∧
    paMatchedSpec paNull none ⟨some TARGET_EPSG, {0}⟩ = paNull.features.filter
      (fun f => f.field == some "None" &&
        spatialPass (some ⟨some TARGET_EPSG, {0}⟩) f) ∧
    (⟨none, {0}⟩ : Feature) ∉ paMatchedSpec paNull none ⟨some TARGET_EPSG, {0}⟩ :=
  c9_null_category_bucket paNull ⟨some TARGET_EPSG, {0}⟩ ⟨none, {0}⟩
    (by decide) rfl

/-- C10: the attribute filter applied to the admin and protected-area
layers is exactly the unescaped interpolation `<field> = '<value>'`; for a
value containing a single quote the resulting expression is not an
equality test against that value — it fails to match the very feature
whose field equals the value. -/
theorem c10_unescaped_filter (field v : String) (f : Feature)
    (hfield : field = ADMIN_VECTOR_ID_FIELD ∨ field = PROTECTED_AREAS_FIELD)
    (hq : '\'' ∈ v.data) (hfv : f.field = some v) :
    buildFilter field v = field ++ " = '" ++ v ++ "'" ∧
    attrPass (some (buildFilter field v)) f = false := by
  refine ⟨rfl, ?_⟩
  rcases hfield with h | h
  · subst h
    exact attrPass_quoted ADMIN_VECTOR_ID_FIELD v (by decide) hq f hfv
  · subst h
    exact attrPass_quoted PROTECTED_AREAS_FIELD v (by decide) hq f hfv

/-- C10 witness: a region code with an embedded quote is not matched by the
filter built from it. -/
theorem c10_witness :
    buildFilter "iso3" "a'b" = "iso3" ++ " = '" ++ "a'b" ++ "'" ∧
    attrPass (some (buildFilter "iso3" "a'b")) ⟨some "a'b", {0}⟩ = false :=
  c10_unescaped_filter "iso3" "a'b" ⟨some "a'b", {0}⟩ (Or.inl rfl)
    (by decide) rfl

end JP
